import Mathlib

/-! The ets2 telemetry client: a shallow embedding of `client.go`.

The development follows `src/client.go`:

* `Client`, `NewClient`, `Client.GetTelemetry` and `parseTelemetry` are
  translated from the source, statement by statement;
* the anonymous struct type `Telemetry` is carried as a reflective schema
  (`Telemetry`, a `GoType`), because that is how `encoding/json` sees it;
* `json.Unmarshal`, `http.Get`, `ioutil.ReadAll` and `log.Fatalf` are library
  calls.  `Unmarshal` is modelled from the documented behaviour of
  `encoding/json` (scanner, literal store, struct field lookup); the network
  is an explicit `Transport` parameter; `log.Fatalf` is `Outcome.exited`.

Byte buffers and Go strings that come out of the decoder are `List Nat`
(bytes); the base URL, which is only ever concatenated, is a `String`.

The model of `encoding/json` keeps what decides the result of `Unmarshal` on
the data model: the grammar the scanner accepts and its nesting limit, the
unquoting of strings, the conversion of numeric literals by `strconv`, the
lookup of a field by key, and the rule that a type error is saved while
decoding goes on. It leaves out the offset and the field path recorded in an
`UnmarshalTypeError`. Go's `int` is taken to be 64 bits wide.
-/

namespace Ets2

/-! ## Bytes -/

/-- UTF-8 encoding of one Unicode scalar value (`utf8.EncodeRune`); surrogates
and values past U+10FFFF are written as U+FFFD. -/
def encodeRune (r : Nat) : List Nat :=
  if r < 0x80 then [r]
  else if r < 0x800 then [0xC0 + r / 64, 0x80 + r % 64]
  else if (0xD800 ≤ r ∧ r < 0xE000) ∨ 0x10FFFF < r then [0xEF, 0xBF, 0xBD]
  else if r < 0x10000 then [0xE0 + r / 4096, 0x80 + r / 64 % 64, 0x80 + r % 64]
  else [0xF0 + r / 262144, 0x80 + r / 4096 % 64, 0x80 + r / 64 % 64, 0x80 + r % 64]

/-- The bytes of a string literal, as Go stores a `string` or a `[]byte`. -/
def utf8 (s : String) : List Nat :=
  s.data.flatMap fun c => encodeRune c.toNat

/-! ## JSON text: tokens -/

/-- A JSON value in the order it was written; an object keeps repeated names.
Strings are held unquoted (as `unquote` returns them), numbers as the literal
text (as the decoder hands it to `strconv`). -/
inductive JSON where
  | null
  | bool (b : Bool)
  | num (text : List Nat)
  | str (s : List Nat)
  | arr (elems : List JSON)
  | obj (members : List (List Nat × JSON))

/-- The lexical items of JSON text. -/
inductive Token where
  | lbrace | rbrace | lbrack | rbrack | colon | comma
  | str (s : List Nat)
  | num (text : List Nat)
  | lit (v : JSON)

/-- Where the scanner is inside a numeric literal (`stateNeg`, `state0`,
`state1`, `stateDot`, `stateDot0`, `stateE`, `stateESign`, `stateE0`). -/
inductive NumState where
  | neg | zero | digits | dot | frac | e | esign | exp
  deriving DecidableEq

/-- Where the scanner is between or inside tokens. `raw` is the text of the
token read so far. -/
inductive LexState where
  | start
  | inString (raw : List Nat)
  | inStringEsc (raw : List Nat)
  | inStringEscU (left : Nat) (raw : List Nat)
  | inNumber (st : NumState) (raw : List Nat)
  | inLiteral (rest : List Nat) (v : JSON)

/-- The scanner's `isSpace`: space, tab, carriage return, line feed. -/
def isSpace (c : Nat) : Bool := c = 32 ∨ c = 9 ∨ c = 13 ∨ c = 10

def isDigit (c : Nat) : Bool := 48 ≤ c ∧ c ≤ 57

def isHex (c : Nat) : Bool :=
  isDigit c ∨ (97 ≤ c ∧ c ≤ 102) ∨ (65 ≤ c ∧ c ≤ 70)

def hexVal (c : Nat) : Nat :=
  if isDigit c then c - 48 else if 97 ≤ c then c - 87 else c - 55

/-- U+FFFD as UTF-8, what `unquoteBytes` writes for anything ill-formed. -/
def replacement : List Nat := [0xEF, 0xBF, 0xBD]

/-- Where `unquoteBytes` is in the text of a string literal. -/
inductive UnqState where
  /-- between characters -/
  | plain
  /-- after a backslash -/
  | esc
  /-- inside the four hex digits of an escape: `left` digits to go, `acc` their
  value so far, `high` the high surrogate the previous escape gave, if any -/
  | escU (left : Nat) (acc : Nat) (high : Option Nat)
  /-- right after an escape that gave a high surrogate -/
  | afterHigh (high : Nat)
  /-- after a high surrogate escape and one backslash -/
  | afterHighEsc (high : Nat)
  /-- inside a multi-byte UTF-8 sequence: `need` bytes to go, `held` the bytes
  taken so far, the next one must lie in `lo..hi` -/
  | multi (need : Nat) (held : List Nat) (lo hi : Nat)

/-- One byte read between characters (`utf8.DecodeRune` on the lead byte). -/
def unqPlain (out : List Nat) (c : Nat) : UnqState × List Nat :=
  if c = 92 then (.esc, out)
  else if c < 0x80 then (.plain, out ++ [c])
  else if 0xC2 ≤ c ∧ c ≤ 0xDF then (.multi 1 [c] 0x80 0xBF, out)
  else if c = 0xE0 then (.multi 2 [c] 0xA0 0xBF, out)
  else if c = 0xED then (.multi 2 [c] 0x80 0x9F, out)
  else if 0xE1 ≤ c ∧ c ≤ 0xEF then (.multi 2 [c] 0x80 0xBF, out)
  else if c = 0xF0 then (.multi 3 [c] 0x90 0xBF, out)
  else if 0xF1 ≤ c ∧ c ≤ 0xF3 then (.multi 3 [c] 0x80 0xBF, out)
  else if c = 0xF4 then (.multi 3 [c] 0x80 0x8F, out)
  else (.plain, out ++ replacement)

/-- The character after a backslash. -/
def unqEsc (out : List Nat) (c : Nat) : UnqState × List Nat :=
  if c = 117 then (.escU 4 0 none, out)
  else if c = 98 then (.plain, out ++ [8])
  else if c = 102 then (.plain, out ++ [12])
  else if c = 110 then (.plain, out ++ [10])
  else if c = 114 then (.plain, out ++ [13])
  else if c = 116 then (.plain, out ++ [9])
  else (.plain, out ++ [c])

/-- An escape that stands alone gave the code unit `r`. -/
def unqUnit (out : List Nat) (r : Nat) : UnqState × List Nat :=
  if 0xD800 ≤ r ∧ r < 0xDC00 then (.afterHigh r, out)
  else if 0xDC00 ≤ r ∧ r < 0xE000 then (.plain, out ++ replacement)
  else (.plain, out ++ encodeRune r)

/-- One byte of the text of a string literal. -/
def unqStep : UnqState × List Nat → Nat → UnqState × List Nat
  | (.plain, out), c => unqPlain out c
  | (.esc, out), c => unqEsc out c
  | (.escU left acc high, out), c =>
    let r := acc * 16 + hexVal c
    if left ≤ 1 then
      match high with
      | none => unqUnit out r
      | some h =>
        if 0xDC00 ≤ r ∧ r < 0xE000 then
          (.plain, out ++ encodeRune (0x10000 + (h - 0xD800) * 1024 + (r - 0xDC00)))
        else unqUnit (out ++ replacement) r
    else (.escU (left - 1) r high, out)
  | (.afterHigh h, out), c =>
    if c = 92 then (.afterHighEsc h, out) else unqPlain (out ++ replacement) c
  | (.afterHighEsc h, out), c =>
    if c = 117 then (.escU 4 0 (some h), out) else unqEsc (out ++ replacement) c
  | (.multi need held lo hi, out), c =>
    if lo ≤ c ∧ c ≤ hi then
      if need ≤ 1 then (.plain, out ++ held ++ [c])
      else (.multi (need - 1) (held ++ [c]) 0x80 0xBF, out)
    else unqPlain (out ++ (held.flatMap fun _ => replacement)) c

/-- The text of a string literal without its quotes turned into the bytes of
the Go string (`unquoteBytes`): escapes are replaced, a surrogate pair written
as two escapes is combined, and whatever is not well-formed UTF-8 becomes
U+FFFD, one per offending byte. The scanner has already accepted the text. -/
def unquote (raw : List Nat) : List Nat :=
  match raw.foldl unqStep (.plain, []) with
  | (.afterHigh _, out) => out ++ replacement
  | (.multi _ held _ _, out) => out ++ (held.flatMap fun _ => replacement)
  | (_, out) => out

/-! ## JSON text: the scanner -/

/-- A byte that may start a token. -/
def lexStart (acc : List Token) (c : Nat) : Option (LexState × List Token) :=
  if isSpace c then some (.start, acc)
  else if c = 123 then some (.start, acc ++ [.lbrace])
  else if c = 125 then some (.start, acc ++ [.rbrace])
  else if c = 91 then some (.start, acc ++ [.lbrack])
  else if c = 93 then some (.start, acc ++ [.rbrack])
  else if c = 58 then some (.start, acc ++ [.colon])
  else if c = 44 then some (.start, acc ++ [.comma])
  else if c = 34 then some (.inString [], acc)
  else if c = 45 then some (.inNumber .neg [c], acc)
  else if c = 48 then some (.inNumber .zero [c], acc)
  else if isDigit c then some (.inNumber .digits [c], acc)
  else if c = 116 then some (.inLiteral [114, 117, 101] (.bool true), acc)
  else if c = 102 then some (.inLiteral [97, 108, 115, 101] (.bool false), acc)
  else if c = 110 then some (.inLiteral [117, 108, 108] .null, acc)
  else none

/-- One byte inside a numeric literal: `some (some st)` goes on in `st`,
`some none` means the literal ended before this byte, `none` is a syntax
error. -/
def numStep (st : NumState) (c : Nat) : Option (Option NumState) :=
  match st with
  | .neg => if c = 48 then some (some .zero) else if isDigit c then some (some .digits) else none
  | .zero =>
    if c = 46 then some (some .dot) else if c = 101 ∨ c = 69 then some (some .e) else some none
  | .digits =>
    if isDigit c then some (some .digits) else if c = 46 then some (some .dot)
    else if c = 101 ∨ c = 69 then some (some .e) else some none
  | .dot => if isDigit c then some (some .frac) else none
  | .frac =>
    if isDigit c then some (some .frac) else if c = 101 ∨ c = 69 then some (some .e)
    else some none
  | .e =>
    if c = 43 ∨ c = 45 then some (some .esign) else if isDigit c then some (some .exp) else none
  | .esign => if isDigit c then some (some .exp) else none
  | .exp => if isDigit c then some (some .exp) else some none

/-- The states in which a numeric literal may end. -/
def NumState.final : NumState → Bool
  | .zero | .digits | .frac | .exp => true
  | _ => false

/-- One byte of JSON text. -/
def lexStep : LexState × List Token → Nat → Option (LexState × List Token)
  | (.start, acc), c => lexStart acc c
  | (.inString raw, acc), c =>
    if c = 34 then some (.start, acc ++ [.str (unquote raw)])
    else if c = 92 then some (.inStringEsc (raw ++ [c]), acc)
    else if c < 32 then none
    else some (.inString (raw ++ [c]), acc)
  | (.inStringEsc raw, acc), c =>
    if c = 117 then some (.inStringEscU 4 (raw ++ [c]), acc)
    else if c = 98 ∨ c = 102 ∨ c = 110 ∨ c = 114 ∨ c = 116 ∨ c = 92 ∨ c = 47 ∨ c = 34 then
      some (.inString (raw ++ [c]), acc)
    else none
  | (.inStringEscU left raw, acc), c =>
    if isHex c then
      if left ≤ 1 then some (.inString (raw ++ [c]), acc)
      else some (.inStringEscU (left - 1) (raw ++ [c]), acc)
    else none
  | (.inNumber st raw, acc), c =>
    match numStep st c with
    | none => none
    | some (some st2) => some (.inNumber st2 (raw ++ [c]), acc)
    | some none => lexStart (acc ++ [.num raw]) c
  | (.inLiteral rest v, acc), c =>
    match rest with
    | [] => lexStart (acc ++ [.lit v]) c
    | [x] => if c = x then some (.start, acc ++ [.lit v]) else none
    | x :: more => if c = x then some (.inLiteral more v, acc) else none

/-- The scanner run over the whole text. -/
def lexFrom : LexState × List Token → List Nat → Option (LexState × List Token)
  | s, [] => some s
  | s, c :: cs =>
    match lexStep s c with
    | none => none
    | some s2 => lexFrom s2 cs

/-- The tokens of a text, or `none` where the scanner stops with a syntax
error. At the end of the text only a numeric literal may still be open. -/
def lex (text : List Nat) : Option (List Token) :=
  match lexFrom (.start, []) text with
  | some (.start, acc) => some acc
  | some (.inNumber st raw, acc) => if st.final then some (acc ++ [.num raw]) else none
  | _ => none

/-! ## JSON text: values -/

/-- A container that is still being read. -/
inductive Frame where
  | arr (elems : List JSON)
  | obj (members : List (List Nat × JSON)) (key : Option (List Nat))

/-- What the scanner accepts next (`stateBeginValue`, `stateBeginValueOrEmpty`,
`stateBeginStringOrEmpty`, `stateBeginString`, `stateEndValue` after a key and
after a value, `stateEndTop`). -/
inductive Expect where
  | value | valueOrEnd | keyOrEnd | key | colon | commaOrEnd
  | top (v : JSON)

/-- The nesting the scanner allows (`maxNestingDepth`). -/
def maxNestingDepth : Nat := 10000

/-- A value is complete: it goes into the container it is in, or is the
document. -/
def endValue (v : JSON) : List Frame → Option (List Frame × Expect)
  | [] => some ([], .top v)
  | .arr elems :: up => some (.arr (elems ++ [v]) :: up, .commaOrEnd)
  | .obj members (some k) :: up => some (.obj (members ++ [(k, v)]) none :: up, .commaOrEnd)
  | .obj _ none :: _ => none

/-- A token where a value is expected. -/
def beginValue (stack : List Frame) : Token → Option (List Frame × Expect)
  | .lbrace =>
    if stack.length + 1 ≤ maxNestingDepth then some (.obj [] none :: stack, .keyOrEnd) else none
  | .lbrack =>
    if stack.length + 1 ≤ maxNestingDepth then some (.arr [] :: stack, .valueOrEnd) else none
  | .str s => endValue (.str s) stack
  | .num text => endValue (.num text) stack
  | .lit v => endValue v stack
  | _ => none

/-- The innermost container is closed by `close`. -/
def endContainer (close : Token) : List Frame → Option (List Frame × Expect)
  | .arr elems :: up => match close with
    | .rbrack => endValue (.arr elems) up
    | _ => none
  | .obj members none :: up => match close with
    | .rbrace => endValue (.obj members) up
    | _ => none
  | _ => none

/-- One token of the document. -/
def parseStep : List Frame × Expect → Token → Option (List Frame × Expect)
  | (stack, .value), t => beginValue stack t
  | (stack, .valueOrEnd), t => match t with
    | .rbrack => endContainer t stack
    | _ => beginValue stack t
  | (stack, .keyOrEnd), t => match t, stack with
    | .rbrace, _ => endContainer t stack
    | .str k, .obj members none :: up => some (.obj members (some k) :: up, .colon)
    | _, _ => none
  | (stack, .key), t => match t, stack with
    | .str k, .obj members none :: up => some (.obj members (some k) :: up, .colon)
    | _, _ => none
  | (stack, .colon), t => match t with
    | .colon => some (stack, .value)
    | _ => none
  | (stack, .commaOrEnd), t => match t, stack with
    | .comma, .arr _ :: _ => some (stack, .value)
    | .comma, .obj _ _ :: _ => some (stack, .key)
    | .rbrack, _ => endContainer t stack
    | .rbrace, _ => endContainer t stack
    | _, _ => none
  | (_, .top _), _ => none

def parseFrom : List Frame × Expect → List Token → Option (List Frame × Expect)
  | s, [] => some s
  | s, t :: ts =>
    match parseStep s t with
    | none => none
    | some s2 => parseFrom s2 ts

/-- The value a text denotes, or `none` for a text `checkValid` refuses: one
JSON value, white space around it, nesting no deeper than `maxNestingDepth`. -/
def parse (text : List Nat) : Option JSON :=
  match lex text with
  | none => none
  | some toks =>
    match parseFrom ([], .value) toks with
    | some ([], .top v) => some v
    | _ => none

/-! ## Numbers: `strconv.ParseInt` and `strconv.ParseFloat` on a JSON literal -/

/-- The value of a run of decimal digits. -/
def digitsVal (ds : List Nat) : Nat :=
  ds.foldl (fun a d => a * 10 + (d - 48)) 0

/-- The size of Go's `int` on the platforms the client is built for. -/
def intSize : Nat := 64

/-- The decoder's `strconv.ParseInt(text, 10, 64)` followed by `OverflowInt`:
an optional minus sign and digits only, within the range of `int`. -/
def parseInt (text : List Nat) : Option Int :=
  let neg : Bool := text.head? = some 45
  let ds := if neg then text.tail else text
  if ds ≠ [] ∧ ds.all isDigit then
    let n := digitsVal ds
    if neg then (if n ≤ 2 ^ (intSize - 1) then some (-(n : Int)) else none)
    else (if n < 2 ^ (intSize - 1) then some (n : Int) else none)
  else none

/-- A decimal literal read as `(-1)^neg * mant * 10^exp`. -/
structure Decimal where
  neg : Bool
  mant : Nat
  exp : Int

/-- The parts of a JSON numeric literal: sign, integer digits, fraction
digits, exponent. -/
def readDecimal (text : List Nat) : Option Decimal :=
  let neg : Bool := text.head? = some 45
  let body := if neg then text.tail else text
  let ip := body.takeWhile isDigit
  let r1 := body.dropWhile isDigit
  let hasFrac : Bool := r1.head? = some 46
  let fp := if hasFrac then r1.tail.takeWhile isDigit else []
  let r2 := if hasFrac then r1.tail.dropWhile isDigit else r1
  let hasExp : Bool := r2.head? = some 101 ∨ r2.head? = some 69
  let r3 := if hasExp then r2.tail else r2
  let eneg : Bool := r3.head? = some 45
  let r4 := if r3.head? = some 45 ∨ r3.head? = some 43 then r3.tail else r3
  let ep := if hasExp then r4 else []
  if ip = [] ∨ (hasFrac ∧ fp = []) ∨ (hasExp ∧ ep = []) ∨ ¬ ep.all isDigit
      ∨ (¬ hasExp ∧ r2 ≠ []) then none
  else
    let e : Int := if eneg then -(digitsVal ep : Int) else (digitsVal ep : Int)
    some ⟨neg, digitsVal (ip ++ fp), e - (fp.length : Int)⟩

/-- The position of the highest set bit: `2 ^ bitLog fuel n ≤ n < 2 ^ (bitLog
fuel n + 1)` for `1 ≤ n < 2 ^ (fuel + 1)`. -/
def bitLog : Nat → Nat → Nat
  | 0, _ => 0
  | fuel + 1, n => if n < 2 then 0 else bitLog fuel (n / 2) + 1

/-- Whether `2 ^ l ≤ num / den`. -/
def atLeastPow2 (num den : Nat) (l : Int) : Bool :=
  if 0 ≤ l then den * 2 ^ l.toNat ≤ num else den ≤ num * 2 ^ (-l).toNat

/-- The IEEE 754 binary32 nearest to a decimal, ties to even, as its 32 bits
(`math.Float32bits` of `strconv.ParseFloat(text, 32)`); `none` where the
result is out of range (`ErrRange`, the value rounds to an infinity). -/
def float32Bits (d : Decimal) : Option Nat :=
  let sign := if d.neg then 2 ^ 31 else 0
  if d.mant = 0 then some sign
  else
    let num := if 0 ≤ d.exp then d.mant * 10 ^ d.exp.toNat else d.mant
    let den := if 0 ≤ d.exp then 1 else 10 ^ (-d.exp).toNat
    let l0 : Int := (bitLog num num : Int) - (bitLog den den : Int)
    -- the binade of the value and the weight of the last place in it
    let l := if atLeastPow2 num den l0 then l0 else l0 - 1
    let q := max l (-126) - 23
    let a := if 0 ≤ q then num else num * 2 ^ (-q).toNat
    let b := if 0 ≤ q then den * 2 ^ q.toNat else den
    let n0 := a / b
    let r := a % b
    let n1 := if b < 2 * r ∨ (2 * r = b ∧ n0 % 2 = 1) then n0 + 1 else n0
    -- rounding up may reach the next binade
    let n := if n1 = 2 ^ 24 then 2 ^ 23 else n1
    let q2 := if n1 = 2 ^ 24 then q + 1 else q
    if n < 2 ^ 23 then some (sign + n)
    else if 255 ≤ q2 + 150 then none
    else some (sign + (q2 + 150).toNat * 2 ^ 23 + (n - 2 ^ 23))

/-- The decoder's `strconv.ParseFloat(text, 32)`. -/
def parseFloat32 (text : List Nat) : Option Nat :=
  match readDecimal text with
  | none => none
  | some d => float32Bits d

/-! ## Go types and values, as `reflect` shows them to the decoder -/

/-- The types the data model is built from. A struct type lists its fields in
the order of declaration. -/
inductive GoType where
  | bool
  | string
  | float32
  | int
  | struct (fields : List (String × GoType))

/-- A value of a `GoType`. A `float32` is held as its 32 bits
(`math.Float32bits`), a `string` as its bytes, a struct as its fields in the
order of declaration. -/
inductive GoVal where
  | bool (b : Bool)
  | string (s : List Nat)
  | float32 (bits : Nat)
  | int (i : Int)
  | struct (fields : List (String × GoVal))

mutual
/-- The zero value of a type: `false`, `""`, `0`, and a struct of zero
values. -/
def zero : GoType → GoVal
  | .bool => .bool false
  | .string => .string []
  | .float32 => .float32 0
  | .int => .int 0
  | .struct fields => .struct (zeroFields fields)
/-- The zero values of the fields of a struct type. -/
def zeroFields : List (String × GoType) → List (String × GoVal)
  | [] => []
  | (name, ty) :: rest => (name, zero ty) :: zeroFields rest
end

/-- The selector `v.name` on a struct value. -/
def GoVal.field (v : GoVal) (name : String) : Option GoVal :=
  match v with
  | .struct fields => (fields.find? fun f => f.1 = name).map Prod.snd
  | _ => none

/-- The selector chain `v.a.b.c`. -/
def GoVal.select (v : GoVal) : List String → Option GoVal
  | [] => some v
  | name :: rest =>
    match v.field name with
    | none => none
    | some w => w.select rest

/-- Assignment to the first field called `name` in a list of fields. -/
def setFieldIn (name : String) (x : GoVal) : List (String × GoVal) → List (String × GoVal)
  | [] => []
  | (n, v) :: rest => if n = name then (n, x) :: rest else (n, v) :: setFieldIn name x rest

/-- The assignment `v.name = x` on a struct value. -/
def GoVal.setField (v : GoVal) (name : String) (x : GoVal) : GoVal :=
  match v with
  | .struct fields => .struct (setFieldIn name x fields)
  | other => other

/-! ## The data model of `client.go` -/

/-- The declaration `type PlacementData struct` (client.go, lines 12-17). -/
def PlacementData : GoType :=
  GoType.struct [
    ("X", GoType.float32), ("Y", GoType.float32), ("Z", GoType.float32),
    ("Heading", GoType.float32),
    ("Pitch", GoType.float32), ("Roll", GoType.float32)]

/-- The declaration `type VectorData struct` (client.go, lines 19-21). -/
def VectorData : GoType :=
  GoType.struct [
    ("X", GoType.float32), ("Y", GoType.float32), ("Z", GoType.float32)]

/-- The anonymous struct type of the field `Game` of `Telemetry`. -/
def TelemetryGame : GoType :=
  GoType.struct [
    ("Connected", GoType.bool), ("Paused", GoType.bool), ("GameName", GoType.string),
    ("Time", GoType.string),
    ("TimeScale", GoType.float32), ("NextRestStopTime", GoType.string), ("Version", GoType.string),
    ("TelemetryPluginVersion", GoType.string)]

/-- The anonymous struct type of the field `Truck` of `Telemetry`. -/
def TelemetryTruck : GoType :=
  GoType.struct [
    ("Id", GoType.string), ("Make", GoType.string), ("Model", GoType.string),
    ("Speed", GoType.float32),
    ("CruiseControlSpeed", GoType.float32), ("CruiseControlOn", GoType.bool),
    ("Odometer", GoType.float32),
    ("Gear", GoType.int), ("DisplayedGear", GoType.int), ("ForwardGears", GoType.int),
    ("ReverseGears", GoType.int),
    ("ShifterType", GoType.string), ("EngineRpm", GoType.float32), ("EngineRpmMax", GoType.float32),
    ("Fuel", GoType.float32), ("FuelCapacity", GoType.float32),
    ("FuelAverageConsumption", GoType.float32),
    ("FuelWarningFactor", GoType.float32), ("FuelWarningOn", GoType.bool),
    ("WearEngine", GoType.float32),
    ("WearTransmission", GoType.float32), ("WearCabin", GoType.float32),
    ("WearChassis", GoType.float32),
    ("WearWheels", GoType.float32), ("UserSteer", GoType.float32), ("UserThrottle", GoType.float32),
    ("UserBrake", GoType.float32), ("UserClutch", GoType.float32), ("GameSteer", GoType.float32),
    ("GameThrottle", GoType.float32), ("GameBrake", GoType.float32), ("GameClutch", GoType.float32),
    ("ShifterSlot", GoType.int), ("EngineOn", GoType.bool), ("ElectricOn", GoType.bool),
    ("WipersOn", GoType.bool),
    ("RetarderBrake", GoType.int), ("RetarderStepCount", GoType.int), ("ParkBrakeOn", GoType.bool),
    ("MotorBrakeOn", GoType.bool), ("BrakeTemperature", GoType.float32), ("Adblue", GoType.float32),
    ("AdblueCapacity", GoType.float32), ("AdblueAverageConsumption", GoType.float32),
    ("AdblueWarningOn", GoType.bool), ("AirPressure", GoType.float32),
    ("AirPressureWarningOn", GoType.bool),
    ("AirPressureWarningValue", GoType.float32), ("AirPressureEmergencyOn", GoType.bool),
    ("AirPressureEmegrencyValue", GoType.float32), ("OilTemperature", GoType.float32),
    ("OilPressure", GoType.float32), ("OilPressureWarningOn", GoType.bool),
    ("OilPressureWarningLevel", GoType.float32), ("WaterTemperature", GoType.float32),
    ("WaterTemperatureWarningOn", GoType.bool), ("WaterTemperatureWarningLevel", GoType.float32),
    ("BatteryVoltage", GoType.float32), ("BatteryVoltageWarningOn", GoType.bool),
    ("BatteryVoltageWarningValue", GoType.float32), ("LightsDashboardValue", GoType.float32),
    ("LightsDashboardOn", GoType.bool), ("BlinkerLeftActive", GoType.bool),
    ("BlinkerRightActive", GoType.bool),
    ("BlinkerLeftOn", GoType.bool), ("BlinkerRightOn", GoType.bool),
    ("LightsParkingOn", GoType.bool),
    ("LightsBeamLowOn", GoType.bool), ("LightsBeamHighOn", GoType.bool),
    ("LightsAuxFrontOn", GoType.bool),
    ("LightsAuxRoofOn", GoType.bool), ("LightsBeaconOn", GoType.bool),
    ("LightsBrakeOn", GoType.bool),
    ("LightsReverseOn", GoType.bool), ("Placement", PlacementData), ("Acceleration", VectorData),
    ("Head", VectorData), ("Cabin", VectorData), ("Hook", VectorData)]

/-- The anonymous struct type of the field `Trailer` of `Telemetry`. -/
def TelemetryTrailer : GoType :=
  GoType.struct [
    ("Attached", GoType.bool), ("Id", GoType.string), ("Mass", GoType.float32),
    ("Wear", GoType.float32),
    ("Placement", PlacementData)]

/-- The anonymous struct type of the field `Job` of `Telemetry`. -/
def TelemetryJob : GoType :=
  GoType.struct [
    ("Income", GoType.int), ("DeadlineTime", GoType.string), ("RemainingTime", GoType.string),
    ("SourceCity", GoType.string), ("SourceCompany", GoType.string),
    ("DestinationCity", GoType.string),
    ("DestinationCompany", GoType.string)]

/-- The anonymous struct type of the field `Navigation` of `Telemetry`. -/
def TelemetryNavigation : GoType :=
  GoType.struct [
    ("EstimatedTime", GoType.string), ("EstimatedDistance", GoType.int), ("SpeedLimit", GoType.int)]

/-- The declaration `type Telemetry struct` (client.go, lines 23-162). -/
def Telemetry : GoType :=
  GoType.struct [
    ("Game", TelemetryGame), ("Truck", TelemetryTruck), ("Trailer", TelemetryTrailer),
    ("Job", TelemetryJob), ("Navigation", TelemetryNavigation)]

/-! ## `encoding/json`: decoding a value into the data model -/

/-- The decoder's `foldName`, by which a key is compared with a field name
when no field has exactly the key as its name: ASCII letters are taken to
upper case, and the two runes outside ASCII whose simple case folding is an
ASCII letter, U+212A KELVIN SIGN and U+017F LATIN SMALL LETTER LONG S, are
taken to `K` and `S`. Every other rune folds to a rune outside ASCII and is
left as it is here: the field names of the data model are ASCII, so that
changes no comparison with one. -/
def foldName : List Nat → List Nat
  | [] => []
  | [a] => [if 97 ≤ a ∧ a ≤ 122 then a - 32 else a]
  | [a, b] =>
    if a = 0xC5 ∧ b = 0xBF then [83]
    else (if 97 ≤ a ∧ a ≤ 122 then a - 32 else a) :: foldName [b]
  | a :: b :: c :: rest =>
    if a = 0xE2 ∧ b = 0x84 ∧ c = 0xAA then 75 :: foldName rest
    else if a = 0xC5 ∧ b = 0xBF then 83 :: foldName (c :: rest)
    else (if 97 ≤ a ∧ a ≤ 122 then a - 32 else a) :: foldName (b :: c :: rest)

/-- The field a key of a JSON object stands for: the field whose name is the
key exactly, or else the first field whose name equals the key under
`foldName`; `none` for a key the decoder skips. -/
def findField (fields : List (String × GoType)) (key : List Nat) : Option (String × GoType) :=
  match fields.find? fun f => utf8 f.1 = key with
  | some f => some f
  | none => fields.find? fun f => foldName (utf8 f.1) = foldName key

/-- What `json.Unmarshal` returns as its error. -/
inductive UnmarshalError where
  /-- a `*json.SyntaxError`: the text is not one well-formed JSON value -/
  | syntaxError
  /-- a `*json.UnmarshalTypeError`: the JSON value described by `value` (`"bool"`,
  `"string"`, `"number"`, `"number "` followed by the literal, `"array"`,
  `"object"`) cannot be stored in a Go value of type `type` -/
  | typeError (value : List Nat) (type : GoType)

/-- The error `saveError` keeps: the first one. -/
def firstError : Option UnmarshalError → Option UnmarshalError → Option UnmarshalError
  | some e, _ => some e
  | none, e => e

mutual
/-- The decoder's `value`: the JSON value `j` is stored into the Go value
`cur` of type `ty`. The result is the new value and the error saved on the
way, if any. `null` leaves a bool, a number, a string and a struct as they
are; a JSON value of another kind than the type takes leaves `cur` as it is
and saves an `UnmarshalTypeError`, and decoding goes on. -/
def decodeValue (ty : GoType) (cur : GoVal) : JSON → GoVal × Option UnmarshalError
  | .null => (cur, none)
  | .bool b =>
    match ty with
    | .bool => (.bool b, none)
    | _ => (cur, some (.typeError (utf8 "bool") ty))
  | .str s =>
    match ty with
    | .string => (.string s, none)
    | _ => (cur, some (.typeError (utf8 "string") ty))
  | .num text =>
    match ty with
    | .float32 =>
      match parseFloat32 text with
      | some bits => (.float32 bits, none)
      | none => (cur, some (.typeError (utf8 "number " ++ text) ty))
    | .int =>
      match parseInt text with
      | some i => (.int i, none)
      | none => (cur, some (.typeError (utf8 "number " ++ text) ty))
    | _ => (cur, some (.typeError (utf8 "number") ty))
  | .arr _ => (cur, some (.typeError (utf8 "array") ty))
  | .obj members =>
    match ty with
    | .struct fields => decodeMembers fields cur members
    | _ => (cur, some (.typeError (utf8 "object") ty))
/-- The decoder's `object` on a struct: the members are taken in the order
they are written; a key that stands for no field is skipped with its value;
the value of any other is decoded into the field as it is by then. -/
def decodeMembers (fields : List (String × GoType)) (cur : GoVal) :
    List (List Nat × JSON) → GoVal × Option UnmarshalError
  | [] => (cur, none)
  | (key, j) :: rest =>
    match findField fields key with
    | none => decodeMembers fields cur rest
    | some (name, fty) =>
      let here := decodeValue fty ((cur.field name).getD (zero fty)) j
      let after := decodeMembers fields (cur.setField name here.1) rest
      (after.1, firstError here.2 after.2)
end

/-- The call `json.Unmarshal(data, &v)` for `v` of type `ty`: the text is
checked first (`checkValid`), and a text that is not well-formed leaves `v`
untouched. -/
def Unmarshal (data : List Nat) (ty : GoType) (v : GoVal) : GoVal × Option UnmarshalError :=
  match parse data with
  | none => (v, some .syntaxError)
  | some j => decodeValue ty v j

/-! ## The process and the network -/

/-- A Go `error` value as the client meets it. -/
inductive GoError where
  /-- an error of `net/http` or of reading the body; `msg` is its text -/
  | net (msg : String)
  /-- an error of `encoding/json` -/
  | json (e : UnmarshalError)

/-- The operands of the client's calls of `log.Fatalf`. -/
inductive LogArg where
  | bytes (b : List Nat)
  | status (code : Int)
  | error (e : GoError)

/-- One line written by the standard logger: the format and its operand. -/
structure LogLine where
  format : String
  arg : LogArg

/-- How a call ends: it returns to its caller, or the process is gone.
`exited code line` is `os.Exit(code)` after `line` was logged. -/
inductive Outcome (α : Type) where
  | returned (a : α)
  | exited (code : Nat) (line : LogLine)

namespace log

/-- The call `log.Fatalf(format, arg)`: "Fatalf is equivalent to Printf
followed by a call to os.Exit(1)". Nothing after it runs. -/
def Fatalf {α : Type} (format : String) (arg : LogArg) : Outcome α :=
  .exited 1 ⟨format, arg⟩

end log

/-- What `ioutil.ReadAll(resp.Body)` gives: everything up to the end of the
body and a nil error, or what was read before the read failed and the
error. -/
structure Body where
  data : List Nat
  err : Option GoError

/-- An `*http.Response`, as far as the client looks at it. -/
structure Response where
  StatusCode : Int
  Body : Body

/-- The network: what the call `http.Get(url)` gives back, a response or an
error. Parsing the URL, connecting and following redirects all happen inside
`http.Get`; the response is the last one. -/
abbrev Transport := String → Except GoError Response

/-- The wire: the URLs of the GET requests `net/http` sends for the call
`http.Get(url)`, in order. There is none when the call fails before anything
is sent (a URL that does not parse, a connection that is refused), and more
than one when a redirect is followed. -/
abbrev Wire := String → List String

/-- The calls the client makes into the libraries that reach the world outside
the process, in order. -/
inductive Event where
  /-- the call `http.Get(url)`, with the URL the client passed to it -/
  | get (url : String)
  /-- the response body was read to its end or to an error -/
  | readAll
  /-- the response body was closed -/
  | close
  deriving DecidableEq

/-- The arguments of the calls of `http.Get` among the events, in order. -/
def calls : List Event → List String
  | [] => []
  | .get url :: rest => url :: calls rest
  | _ :: rest => calls rest

/-- The URLs of the GET requests that went out on the wire `wire` for the
calls of `http.Get` among the events, in order. -/
def sent (wire : Wire) (events : List Event) : List String :=
  (calls events).flatMap wire

/-! ## `client.go` -/

/-- The declaration `type Client struct { BaseUrl string }` (client.go, lines 8-10). -/
structure Client where
  BaseUrl : String
  deriving DecidableEq

/-- The function `func NewClient(BaseUrl string) Client` (client.go, lines 164-166). -/
def NewClient (BaseUrl : String) : Client :=
  { BaseUrl := BaseUrl }

/-- The function `func parseTelemetry(jsonIn []byte) (t Telemetry, err error)`
(client.go, lines 189-195). -/
def parseTelemetry (jsonIn : List Nat) : Outcome (GoVal × Option GoError) :=
  -- the named results start as zero values
  let t := zero Telemetry
  -- err = json.Unmarshal(jsonIn, &t)
  let r := Unmarshal jsonIn Telemetry t
  match r.2 with
  -- if err != nil { log.Fatalf("Failed to parse: %v", jsonIn) }
  | some _ => log.Fatalf "Failed to parse: %v" (.bytes jsonIn)
  -- return
  | none => .returned (r.1, none)

/-- The method `func (c Client) GetTelemetry() (t Telemetry, err error)` (client.go,
lines 168-187), run against the network `net`. The second component is the
calls it made to `http.Get` and `ioutil.ReadAll`, and to `Close` had it made
one, up to the point where it returned or the process exited. -/
def Client.GetTelemetry (c : Client) (net : Transport) :
    Outcome (GoVal × Option GoError) × List Event :=
  -- resp, err := http.Get(c.BaseUrl + "/api/ets2/telemetry")
  let url := c.BaseUrl ++ "/api/ets2/telemetry"
  match net url with
  -- if err != nil { log.Fatalf("HTTP GET failed: %v", err); return }
  | .error err => (log.Fatalf "HTTP GET failed: %v" (.error err), [.get url])
  | .ok resp =>
    -- if resp.StatusCode != 200 { log.Fatalf("Bad status %v", resp.StatusCode) }
    if resp.StatusCode ≠ 200 then
      (log.Fatalf "Bad status %v" (.status resp.StatusCode), [.get url])
    else
      -- body, err := ioutil.ReadAll(resp.Body)
      match resp.Body.err with
      -- if err != nil { log.Fatalf("Failed to read http response: %v", err); return }
      | some err =>
        (log.Fatalf "Failed to read http response: %v" (.error err), [.get url, .readAll])
      -- t, err = parseTelemetry(body); return
      | none => (parseTelemetry resp.Body.data, [.get url, .readAll])

/-- The statement `t, err := client.GetTelemetry()` as its caller sees it:
the caller's `client` after the call, and what the call did. The method has a
value receiver (`func (c Client)`, client.go, line 168): it runs on a copy of
`client`, and its body has no assignment to `c` or to `c.BaseUrl`. -/
def Client.afterGetTelemetry (client : Client) (net : Transport) :
    Client × (Outcome (GoVal × Option GoError) × List Event) :=
  (client, client.GetTelemetry net)

/-! ## Notions the properties are stated with -/

/-- The fields of a struct type. -/
def GoType.fields : GoType → List (String × GoType)
  | .struct fields => fields
  | _ => []

/-- The type of the selector chain `v.a.b.c` for `v` of type `ty`. -/
def fieldType (ty : GoType) : List String → Option GoType
  | [] => some ty
  | name :: rest =>
    match ty.fields.find? fun f => f.1 = name with
    | none => none
    | some f => fieldType f.2 rest

mutual
/-- Whether a value has the shape of a type: the kind of the type, and for a
struct the fields of the type, name by name. -/
def conforms : GoType → GoVal → Bool
  | .bool, .bool _ => true
  | .string, .string _ => true
  | .float32, .float32 _ => true
  | .int, .int _ => true
  | .struct fields, .struct vs => conformsFields fields vs
  | _, _ => false
/-- Whether the values of the fields have the shape of the fields. -/
def conformsFields : List (String × GoType) → List (String × GoVal) → Bool
  | [], [] => true
  | (n, ty) :: fs, (m, v) :: vs => n = m && conforms ty v && conformsFields fs vs
  | _, _ => false
end

mutual
/-- Whether a JSON value is a value of a Go type: `true` or `false` for a
bool, a string for a string, a numeric literal that `strconv` converts for a
number, and for a struct an object in which the value of every key that
stands for a field is a value of the type of the field. -/
def hasType : GoType → JSON → Bool
  | .bool, .bool _ => true
  | .string, .str _ => true
  | .float32, .num text => (parseFloat32 text).isSome
  | .int, .num text => (parseInt text).isSome
  | .struct fields, .obj members => membersTyped fields members
  | _, _ => false
/-- Whether every member that stands for a field carries a value of the type
of the field. -/
def membersTyped (fields : List (String × GoType)) : List (List Nat × JSON) → Bool
  | [] => true
  | (key, j) :: rest =>
    (match findField fields key with
      | none => true
      | some f => hasType f.2 j) && membersTyped fields rest
end

mutual
/-- Whether a document carries a key for the field at the end of a selector
chain: at each level an object has a member whose key stands for the next
field of the chain. The empty chain is the value itself. -/
def mentions : GoType → List String → JSON → Bool
  | _, [], _ => true
  | ty, name :: rest, .obj members => mentionsIn ty.fields name rest members
  | _, _ :: _, _ => false
/-- Whether one of the members carries a key for the chain `name :: rest`. -/
def mentionsIn (fields : List (String × GoType)) (name : String) (rest : List String) :
    List (List Nat × JSON) → Bool
  | [] => false
  | (key, j) :: more =>
    (match findField fields key with
      | none => false
      | some f => f.1 = name && mentions f.2 rest j) || mentionsIn fields name rest more
end

/-- A document `j2` is the document `j1` with one more member, under a key
that stands for no field of the data model at the level where it is added:
in the object itself, or in the value of a member that stands for a field of
struct type. -/
inductive AddsUnknown : GoType → JSON → JSON → Prop where
  | here (fields : List (String × GoType)) (pre post : List (List Nat × JSON))
      (key : List Nat) (j : JSON) :
      findField fields key = none →
      AddsUnknown (.struct fields) (.obj (pre ++ post)) (.obj (pre ++ (key, j) :: post))
  | inside (fields : List (String × GoType)) (pre post : List (List Nat × JSON))
      (key : List Nat) (f : String × GoType) (j1 j2 : JSON) :
      findField fields key = some f → AddsUnknown f.2 j1 j2 →
      AddsUnknown (.struct fields) (.obj (pre ++ (key, j1) :: post))
        (.obj (pre ++ (key, j2) :: post))

/-- A JSON value `j` that writes the Go value `v` of a type that is not a
struct: the literal of a bool, the quoted text of a string, a numeric literal
that converts to the number. -/
inductive Denotes : GoType → JSON → GoVal → Prop where
  | bool (b : Bool) : Denotes .bool (.bool b) (.bool b)
  | string (s : List Nat) : Denotes .string (.str s) (.string s)
  | float32 (text : List Nat) (bits : Nat) :
      parseFloat32 text = some bits → Denotes .float32 (.num text) (.float32 bits)
  | int (text : List Nat) (i : Int) :
      parseInt text = some i → Denotes .int (.num text) (.int i)

/-- The document that holds `j` under the keys `keys`, one object in the
other. -/
def nest : List (List Nat) → JSON → JSON
  | [], j => j
  | key :: keys, j => .obj [(key, nest keys j)]

/-- The spelling of a field name in the telemetry server's JSON: the Go name
with its first letter in lower case. -/
def lowerCamel (name : String) : List Nat :=
  match utf8 name with
  | [] => []
  | c :: rest => (if 65 ≤ c ∧ c ≤ 90 then c + 32 else c) :: rest

/-- The keys `keys` spell the names of the selector chain `path`, one by one,
up to the case of letters as the decoder folds it. -/
def Spells (keys : List (List Nat)) (path : List String) : Prop :=
  List.Forall₂ (fun key name => foldName key = foldName (utf8 name)) keys path

/-- The keys of a selector chain as Go names. -/
def goNames (path : List String) : List (List Nat) := path.map utf8

/-- The keys of a selector chain in lower camel case. -/
def camelNames (path : List String) : List (List Nat) := path.map lowerCamel

mutual
/-- Whether in every struct of a type, at every level, no two fields have
names that differ only in the case of letters: each field is the first one
whose name folds as its own name does. -/
def foldDistinct : GoType → Bool
  | .struct fields => foldDistinctIn fields fields
  | _ => true
/-- The check of `foldDistinct` for the fields `sub` of a struct with the
fields `all`. -/
def foldDistinctIn (all : List (String × GoType)) : List (String × GoType) → Bool
  | [] => true
  | (name, ty) :: sub =>
    ((all.find? fun g => foldName (utf8 g.1) = foldName (utf8 name)).map Prod.fst = some name)
      && foldDistinct ty && foldDistinctIn all sub
end

/-! ## Documents used as examples -/

/-- The text `{"game":{"connected":false}}`: the game is not connected, and
nothing else is said. -/
def disconnected : List Nat :=
  utf8 "\x7b\"game\":\x7b\"connected\":false\x7d\x7d"

/-- The text `{"game":{"connected":true}}`. -/
def connected : List Nat :=
  utf8 "\x7b\"game\":\x7b\"connected\":true\x7d\x7d"

/-- The text `{"game":{"connected":true},"futureField":123}`. -/
def connectedFuture : List Nat :=
  utf8 "\x7b\"game\":\x7b\"connected\":true\x7d,\"futureField\":123\x7d"

/-- The text `{"game":{"connected":true,"futureField":[1,{"a":null}]}}`. -/
def connectedFutureInside : List Nat :=
  utf8 ("\x7b\"game\":\x7b\"connected\":true,"
    ++ "\"futureField\":[1,\x7b\"a\":null\x7d]\x7d\x7d")

/-- The text `not json`, which is not JSON. -/
def notJson : List Nat := utf8 "not json"

/-- The text `"not json"`, a JSON string. -/
def notJsonString : List Nat := utf8 "\"not json\""

/-- The text `{"truck":{"speed":"fast"}}`: a string where a number belongs. -/
def speedString : List Nat :=
  utf8 "\x7b\"truck\":\x7b\"speed\":\"fast\"\x7d\x7d"

/-- The text `{"truck":{"airPressureEmegrencyValue":7.5}}`, the key as the
telemetry server writes it. -/
def emegrency : List Nat :=
  utf8 "\x7b\"truck\":\x7b\"airPressureEmegrencyValue\":7.5\x7d\x7d"

/-- The text `{"truck":{"airPressureEmergencyValue":7.5}}`, the key spelled
correctly. -/
def emergency : List Nat :=
  utf8 "\x7b\"truck\":\x7b\"airPressureEmergencyValue\":7.5\x7d\x7d"

/-- The text `{"truck":{"placement":{"heading":1.5}}}`. -/
def headingCamel : List Nat :=
  utf8 "\x7b\"truck\":\x7b\"placement\":\x7b\"heading\":1.5\x7d\x7d\x7d"

/-- The text `{"Truck":{"Placement":{"Heading":1.5}}}`. -/
def headingGo : List Nat :=
  utf8 "\x7b\"Truck\":\x7b\"Placement\":\x7b\"Heading\":1.5\x7d\x7d\x7d"

/-- The telemetry server of the examples. -/
def localhost : String := "http://localhost:25555"

/-- A network on which every request is answered with the given status and
a body that is read to its end. -/
def answering (status : Int) (body : List Nat) : Transport :=
  fun _ => .ok ⟨status, ⟨body, none⟩⟩

/-- A network on which every request fails. -/
def refusing : Transport :=
  fun _ => .error (.net "dial tcp 127.0.0.1:25555: connect: connection refused")

/-- The text `{"TRUCK":{"PLACEMENT":{"HEADING":1.5}}}`. -/
def headingUpper : List Nat :=
  utf8 "\x7b\"TRUCK\":\x7b\"PLACEMENT\":\x7b\"HEADING\":1.5\x7d\x7d\x7d"

/-- The wire in front of a server that answers the telemetry path with a
redirect to the same path with a slash at its end, which `http.Get` follows:
two GET requests go out for one call. -/
def redirected : Wire :=
  fun url => [url, url ++ "/"]

/-- The wire for a URL without a scheme: `http.Get` fails before anything is
sent. -/
def unsent : Wire :=
  fun _ => []

/-- A network on which `http.Get` fails because the URL has no scheme. -/
def schemeless : Transport :=
  fun _ => .error (.net "unsupported protocol scheme \"\"")

/-- The text `{"truck":{"AIRPRESSUREEMEGRENCYVALUE":7.5}}`: the misspelled
key in upper case. -/
def emegrencyUpper : List Nat :=
  utf8 "\x7b\"truck\":\x7b\"AIRPRESSUREEMEGRENCYVALUE\":7.5\x7d\x7d"

/-- The text `{"truck":{"airPreſſureEmegrencyValue":7.5}}`: the misspelled key
with U+017F LATIN SMALL LETTER LONG S (bytes `C5 BF`) for each `s`. -/
def emegrencyLongS : List Nat :=
  utf8 "\x7b\"truck\":\x7b\"airPre" ++ [0xC5, 0xBF, 0xC5, 0xBF]
    ++ utf8 "ureEmegrencyValue\":7.5\x7d\x7d"

/-- The text
`{"truck":{"airPressureEmegrencyValue":7.5,"AIRPRESSUREEMEGRENCYVALUE":1}}`:
the key bound to 7.5, and the field bound again after it. -/
def emegrencyTwice : List Nat :=
  utf8 ("\x7b\"truck\":\x7b\"airPressureEmegrencyValue\":7.5,"
    ++ "\"AIRPRESSUREEMEGRENCYVALUE\":1\x7d\x7d")

/-- The text `{"truck":{"airPressureEmegrencyValue":7.5},"game":"x"}`: the key
bound to 7.5, and a string where the `game` object belongs. -/
def emegrencyBadGame : List Nat :=
  utf8 "\x7b\"truck\":\x7b\"airPressureEmegrencyValue\":7.5\x7d,\"game\":\"x\"\x7d"

/-- A network on which every request is answered with status 200 and the
connection drops while the body is read. -/
def dropping : Transport :=
  fun _ => .ok ⟨200, ⟨utf8 "\x7b\"game\":", some (.net "unexpected EOF")⟩⟩

/-! ## Struct values -/

theorem firstError_none_left (e : Option UnmarshalError) : firstError none e = e := by
  cases e <;> rfl

theorem firstError_none_right (e : Option UnmarshalError) : firstError e none = e := by
  cases e <;> rfl

theorem firstError_assoc (a b c : Option UnmarshalError) :
    firstError (firstError a b) c = firstError a (firstError b c) := by
  cases a <;> cases b <;> cases c <;> rfl

theorem firstError_eq_none {a b : Option UnmarshalError} :
    firstError a b = none ↔ a = none ∧ b = none := by
  cases a <;> cases b <;> simp [firstError]

/-- What `find?` finds under a test that only looks at the name is the first
field of that name. -/
theorem find?_first_of_name {f : String × GoType} (p : String × GoType → Bool)
    (hp : ∀ g, g.1 = f.1 → p f = true → p g = true) :
    ∀ {fields : List (String × GoType)}, fields.find? p = some f →
      fields.find? (fun g => g.1 = f.1) = some f
  | [], hfind => by simp at hfind
  | g :: rest, hfind => by
    rw [List.find?_cons] at hfind
    rw [List.find?_cons]
    by_cases hg : p g = true
    · rw [hg] at hfind
      simp only [Option.some.injEq] at hfind
      subst hfind
      simp
    · simp only [Bool.not_eq_true] at hg
      rw [hg] at hfind
      have hpf : p f = true := List.find?_some hfind
      have hne : ¬ g.1 = f.1 := by
        intro hgf
        have := hp g hgf hpf
        rw [hg] at this
        exact Bool.false_ne_true this
      simp only [hne, decide_False]
      exact find?_first_of_name p hp hfind

/-- The field `findField` returns is the first field of that name. -/
theorem findField_first {fields : List (String × GoType)} {key : List Nat}
    {f : String × GoType} (h : findField fields key = some f) :
    fields.find? (fun g => g.1 = f.1) = some f := by
  unfold findField at h
  cases hx : fields.find? (fun g => utf8 g.1 = key) with
  | some g =>
    rw [hx] at h
    simp only [Option.some.injEq] at h
    subst h
    refine find?_first_of_name _ ?_ hx
    intro g2 h2 hp
    simp only [decide_eq_true_eq] at hp ⊢
    rw [h2]; exact hp
  | none =>
    rw [hx] at h
    simp only at h
    refine find?_first_of_name _ ?_ h
    intro g2 h2 hp
    simp only [decide_eq_true_eq] at hp ⊢
    rw [h2]; exact hp

theorem findField_mem {fields : List (String × GoType)} {key : List Nat}
    {f : String × GoType} (h : findField fields key = some f) : f ∈ fields :=
  List.mem_of_find?_eq_some (findField_first h)

/-- A value that conforms to a struct type has, for the first field of each
name, a value that conforms to the type of the field. -/
theorem conformsFields_find {name : String} {f : String × GoType} :
    ∀ {fields : List (String × GoType)} {vs : List (String × GoVal)},
      conformsFields fields vs = true → fields.find? (fun g => g.1 = name) = some f →
      ∃ v, vs.find? (fun g => g.1 = name) = some (f.1, v) ∧ conforms f.2 v = true
  | [], _, _, hf => by simp at hf
  | (n, ty) :: fs, [], hc, _ => by simp [conformsFields] at hc
  | (n, ty) :: fs, (m, v) :: vs, hc, hf => by
    simp only [conformsFields, Bool.and_eq_true, decide_eq_true_eq] at hc
    obtain ⟨⟨hnm, hv⟩, hrest⟩ := hc
    subst hnm
    rw [List.find?_cons] at hf ⊢
    by_cases hn : n = name
    · simp only [hn, decide_True, Option.some.injEq] at hf ⊢
      subst hf
      exact ⟨v, by simp [hn], hv⟩
    · simp only [hn, decide_False] at hf ⊢
      exact conformsFields_find hrest hf

theorem conformsFields_setFieldIn {name : String} {x : GoVal} :
    ∀ {fields : List (String × GoType)} {vs : List (String × GoVal)},
      conformsFields fields vs = true →
      (∀ f, fields.find? (fun g => g.1 = name) = some f → conforms f.2 x = true) →
      conformsFields fields (setFieldIn name x vs) = true
  | [], [], _, _ => by simp [setFieldIn, conformsFields]
  | [], _ :: _, hc, _ => by simp [conformsFields] at hc
  | (n, ty) :: fs, [], hc, _ => by simp [conformsFields] at hc
  | (n, ty) :: fs, (m, v) :: vs, hc, hx => by
    simp only [conformsFields, Bool.and_eq_true, decide_eq_true_eq] at hc
    obtain ⟨⟨hnm, hv⟩, hrest⟩ := hc
    subst hnm
    unfold setFieldIn
    by_cases hn : n = name
    · have := hx (n, ty) (by simp [List.find?_cons, hn])
      simp [hn, conformsFields, hrest]
      simpa using this
    · simp only [hn, if_false, conformsFields, Bool.and_eq_true, decide_eq_true_eq, hv, true_and]
      refine conformsFields_setFieldIn hrest ?_
      intro f hf
      exact hx f (by simpa [List.find?_cons, hn] using hf)

/-- Reading a field after an assignment to a field. -/
theorem find_setFieldIn (name other : String) (x : GoVal) :
    ∀ vs : List (String × GoVal),
      (setFieldIn name x vs).find? (fun g => g.1 = other) =
        if other = name ∧ (vs.find? fun g => g.1 = name).isSome then some (name, x)
        else vs.find? (fun g => g.1 = other)
  | [] => by simp [setFieldIn]
  | (n, v) :: vs => by
    unfold setFieldIn
    by_cases hn : n = name
    · subst hn
      by_cases ho : other = n
      · subst ho; simp [List.find?_cons]
      · have : ¬ n = other := fun h => ho h.symm
        simp [List.find?_cons, ho, this]
    · have ih := find_setFieldIn name other x vs
      by_cases ho : n = other
      · subst ho
        have : ¬ (n = name ∧ (List.find? (fun g => decide (g.1 = name)) ((n, v) :: vs)).isSome) := by
          intro h; exact hn h.1
        simp [List.find?_cons, hn]
      · simp only [hn, if_false, List.find?_cons, ho, decide_False, ih]

theorem field_setField (v : GoVal) (name other : String) (x : GoVal) :
    (v.setField name x).field other =
      if other = name ∧ (v.field name).isSome then some x else v.field other := by
  cases v with
  | struct vs =>
    simp only [GoVal.setField, GoVal.field, find_setFieldIn]
    by_cases h : other = name ∧ (vs.find? fun g => g.1 = name).isSome
    · simp [h]
    · have : ¬ (other = name ∧ (Option.map Prod.snd (List.find? (fun f => decide (f.1 = name)) vs)).isSome) := by
        simpa using h
      rw [if_neg h, if_neg this]
  | _ => simp [GoVal.setField, GoVal.field]

theorem select_setField (v : GoVal) (name other : String) (rest : List String) (x : GoVal) :
    (v.setField name x).select (other :: rest) =
      if other = name ∧ (v.field name).isSome then x.select rest else v.select (other :: rest) := by
  simp only [GoVal.select, field_setField]
  by_cases h : other = name ∧ (v.field name).isSome
  · rw [if_pos h, if_pos h]
  · rw [if_neg h, if_neg h]

/-! ## The decoder keeps the shape of the data model -/

theorem conforms_struct {fields : List (String × GoType)} {cur : GoVal}
    (h : conforms (.struct fields) cur = true) :
    ∃ vs, cur = .struct vs ∧ conformsFields fields vs = true := by
  cases cur <;> simp_all [conforms]

/-- In a value that conforms to a struct type, the field a key stands for is
there and conforms to its type. -/
theorem conforms_field {fields : List (String × GoType)} {cur : GoVal} {key : List Nat}
    {f : String × GoType} (h : conforms (.struct fields) cur = true)
    (hf : findField fields key = some f) :
    ∃ w, cur.field f.1 = some w ∧ conforms f.2 w = true := by
  obtain ⟨vs, rfl, hvs⟩ := conforms_struct h
  obtain ⟨v, hv, hc⟩ := conformsFields_find hvs (findField_first hf)
  exact ⟨v, by simp [GoVal.field, hv], hc⟩

theorem conforms_setField {fields : List (String × GoType)} {cur : GoVal} {key : List Nat}
    {f : String × GoType} {x : GoVal} (h : conforms (.struct fields) cur = true)
    (hf : findField fields key = some f) (hx : conforms f.2 x = true) :
    conforms (.struct fields) (cur.setField f.1 x) = true := by
  obtain ⟨vs, rfl, hvs⟩ := conforms_struct h
  simp only [GoVal.setField, conforms]
  refine conformsFields_setFieldIn hvs ?_
  intro g hg
  rw [findField_first hf] at hg
  simp only [Option.some.injEq] at hg
  subst hg
  exact hx

mutual
/-- Decoding into a value of the shape of a type gives a value of that
shape. -/
theorem conforms_decodeValue : ∀ (j : JSON) (ty : GoType) (cur : GoVal),
    conforms ty cur = true → conforms ty (decodeValue ty cur j).1 = true
  | .null, ty, cur, h => by simpa [decodeValue] using h
  | .bool b, ty, cur, h => by
    cases ty with
    | bool => simp [decodeValue, conforms]
    | _ => simpa [decodeValue] using h
  | .str s, ty, cur, h => by
    cases ty with
    | string => simp [decodeValue, conforms]
    | _ => simpa [decodeValue] using h
  | .num text, ty, cur, h => by
    cases ty with
    | float32 =>
      unfold decodeValue
      cases parseFloat32 text
      · simpa using h
      · simp [conforms]
    | int =>
      unfold decodeValue
      cases parseInt text
      · simpa using h
      · simp [conforms]
    | _ => simpa [decodeValue] using h
  | .arr _, ty, cur, h => by simpa [decodeValue] using h
  | .obj members, ty, cur, h => by
    cases ty with
    | struct fields => simpa [decodeValue] using conforms_decodeMembers members fields cur h
    | _ => simp [decodeValue, h]
theorem conforms_decodeMembers : ∀ (members : List (List Nat × JSON))
    (fields : List (String × GoType)) (cur : GoVal),
    conforms (.struct fields) cur = true →
    conforms (.struct fields) (decodeMembers fields cur members).1 = true
  | [], fields, cur, h => by simpa [decodeMembers] using h
  | (key, j) :: rest, fields, cur, h => by
    unfold decodeMembers
    cases hf : findField fields key with
    | none => exact conforms_decodeMembers rest fields cur h
    | some f =>
      obtain ⟨name, fty⟩ := f
      obtain ⟨w, hw, hwc⟩ := conforms_field h hf
      simp only [hw, Option.getD_some]
      exact conforms_decodeMembers rest fields _
        (conforms_setField h hf (conforms_decodeValue j fty w hwc))
end

/-! ## A document of the types of the data model decodes without error -/

mutual
theorem decodeValue_ok : ∀ (j : JSON) (ty : GoType) (cur : GoVal),
    hasType ty j = true → (decodeValue ty cur j).2 = none
  | .null, ty, cur, h => by simp [decodeValue]
  | .bool b, ty, cur, h => by
    cases ty <;> simp_all [decodeValue, hasType]
  | .str s, ty, cur, h => by
    cases ty <;> simp_all [decodeValue, hasType]
  | .num text, ty, cur, h => by
    cases ty with
    | float32 =>
      unfold decodeValue
      cases hp : parseFloat32 text <;> simp_all [hasType]
    | int =>
      unfold decodeValue
      cases hp : parseInt text <;> simp_all [hasType]
    | _ => simp [hasType] at h
  | .arr _, ty, cur, h => by
    cases ty <;> simp [hasType] at h
  | .obj members, ty, cur, h => by
    cases ty with
    | struct fields =>
      simp only [hasType] at h
      simpa [decodeValue] using decodeMembers_ok members fields cur h
    | _ => simp [hasType] at h
theorem decodeMembers_ok : ∀ (members : List (List Nat × JSON))
    (fields : List (String × GoType)) (cur : GoVal),
    membersTyped fields members = true → (decodeMembers fields cur members).2 = none
  | [], fields, cur, h => by simp [decodeMembers]
  | (key, j) :: rest, fields, cur, h => by
    simp only [membersTyped, Bool.and_eq_true] at h
    unfold decodeMembers
    cases hf : findField fields key with
    | none => exact decodeMembers_ok rest fields cur h.2
    | some f =>
      obtain ⟨name, fty⟩ := f
      simp only [hf] at h
      simp only [firstError_eq_none]
      exact ⟨decodeValue_ok j fty _ h.1, decodeMembers_ok rest fields _ h.2⟩
end

/-! ## What a document does not mention stays as it was -/

theorem select_cons_of_not_struct {ty : GoType} {cur : GoVal} (h : conforms ty cur = true)
    (hty : ty.fields = []) (name : String) (rest : List String) :
    cur.select (name :: rest) = none := by
  cases ty <;> cases cur <;> simp_all [conforms, GoVal.select, GoVal.field, GoType.fields]
  rename_i fs vs
  cases vs <;> simp_all [conformsFields]

mutual
theorem select_decodeValue : ∀ (j : JSON) (ty : GoType) (cur : GoVal) (path : List String),
    conforms ty cur = true → mentions ty path j = false →
    (decodeValue ty cur j).1.select path = cur.select path
  | _, _, _, [], _, hm => by simp [mentions] at hm
  | .null, ty, cur, _ :: _, _, _ => by simp [decodeValue]
  | .arr _, ty, cur, _ :: _, _, _ => by simp [decodeValue]
  | .bool b, ty, cur, name :: rest, h, _ => by
    cases ty with
    | bool =>
      rw [select_cons_of_not_struct h rfl]
      simp [decodeValue, GoVal.select, GoVal.field]
    | _ => simp [decodeValue]
  | .str s, ty, cur, name :: rest, h, _ => by
    cases ty with
    | string =>
      rw [select_cons_of_not_struct h rfl]
      simp [decodeValue, GoVal.select, GoVal.field]
    | _ => simp [decodeValue]
  | .num text, ty, cur, name :: rest, h, _ => by
    cases ty with
    | float32 =>
      rw [select_cons_of_not_struct h rfl]
      unfold decodeValue
      cases parseFloat32 text
      · simpa using select_cons_of_not_struct h rfl name rest
      · simp [GoVal.select, GoVal.field]
    | int =>
      rw [select_cons_of_not_struct h rfl]
      unfold decodeValue
      cases parseInt text
      · simpa using select_cons_of_not_struct h rfl name rest
      · simp [GoVal.select, GoVal.field]
    | _ => simp [decodeValue]
  | .obj members, ty, cur, name :: rest, h, hm => by
    cases ty with
    | struct fields =>
      simp only [mentions, GoType.fields] at hm
      simpa [decodeValue] using select_decodeMembers members fields cur name rest h hm
    | _ => simp [decodeValue]
theorem select_decodeMembers : ∀ (members : List (List Nat × JSON))
    (fields : List (String × GoType)) (cur : GoVal) (name : String) (rest : List String),
    conforms (.struct fields) cur = true → mentionsIn fields name rest members = false →
    (decodeMembers fields cur members).1.select (name :: rest) = cur.select (name :: rest)
  | [], fields, cur, name, rest, _, _ => by simp [decodeMembers]
  | (key, j) :: more, fields, cur, name, rest, h, hm => by
    simp only [mentionsIn, Bool.or_eq_false_iff] at hm
    unfold decodeMembers
    cases hf : findField fields key with
    | none => exact select_decodeMembers more fields cur name rest h hm.2
    | some f =>
      obtain ⟨fname, fty⟩ := f
      obtain ⟨w, hw, hwc⟩ := conforms_field h hf
      simp only [hw, Option.getD_some]
      simp only [hf, Bool.and_eq_false_imp, decide_eq_true_eq] at hm
      rw [select_decodeMembers more fields _ name rest
        (conforms_setField h hf (conforms_decodeValue j fty w hwc)) hm.2]
      rw [select_setField]
      by_cases hn : name = fname
      · subst hn
        simp only [true_and, hw, Option.isSome_some, if_true]
        rw [select_decodeValue j fty w rest hwc (hm.1 rfl)]
        simp [GoVal.select, hw]
      · simp [hn]
end

/-! ## Members are decoded one after the other -/

theorem decodeMembers_nil (fields : List (String × GoType)) (cur : GoVal) :
    decodeMembers fields cur [] = (cur, none) := by
  simp only [decodeMembers]

theorem decodeMembers_cons_none {fields : List (String × GoType)} {key : List Nat}
    (h : findField fields key = none) (cur : GoVal) (j : JSON)
    (rest : List (List Nat × JSON)) :
    decodeMembers fields cur ((key, j) :: rest) = decodeMembers fields cur rest := by
  simp only [decodeMembers, h]

theorem decodeMembers_cons_some {fields : List (String × GoType)} {key : List Nat}
    {f : String × GoType} (h : findField fields key = some f) (cur : GoVal) (j : JSON)
    (rest : List (List Nat × JSON)) :
    decodeMembers fields cur ((key, j) :: rest) =
      ((decodeMembers fields
          (cur.setField f.1 (decodeValue f.2 ((cur.field f.1).getD (zero f.2)) j).1) rest).1,
        firstError (decodeValue f.2 ((cur.field f.1).getD (zero f.2)) j).2
          (decodeMembers fields
            (cur.setField f.1 (decodeValue f.2 ((cur.field f.1).getD (zero f.2)) j).1) rest).2) := by
  obtain ⟨name, fty⟩ := f
  simp only [decodeMembers, h]

theorem decodeMembers_append (fields : List (String × GoType)) :
    ∀ (pre post : List (List Nat × JSON)) (cur : GoVal),
      decodeMembers fields cur (pre ++ post) =
        ((decodeMembers fields (decodeMembers fields cur pre).1 post).1,
          firstError (decodeMembers fields cur pre).2
            (decodeMembers fields (decodeMembers fields cur pre).1 post).2)
  | [], post, cur => by simp [decodeMembers_nil, firstError_none_left]
  | (key, j) :: pre, post, cur => by
    rw [List.cons_append]
    cases hf : findField fields key with
    | none =>
      rw [decodeMembers_cons_none hf, decodeMembers_cons_none hf]
      exact decodeMembers_append fields pre post cur
    | some f =>
      rw [decodeMembers_cons_some hf, decodeMembers_cons_some hf]
      rw [decodeMembers_append fields pre post]
      simp only [firstError_assoc]

/-- A member under a key that stands for no field changes nothing. -/
theorem decodeMembers_skip {fields : List (String × GoType)} {key : List Nat}
    (h : findField fields key = none) (pre post : List (List Nat × JSON)) (j : JSON)
    (cur : GoVal) :
    decodeMembers fields cur (pre ++ (key, j) :: post) = decodeMembers fields cur (pre ++ post) := by
  rw [decodeMembers_append, decodeMembers_append fields pre post, decodeMembers_cons_none h]

/-- A member may be replaced by one that decodes alike. -/
theorem decodeMembers_congr {fields : List (String × GoType)} {key : List Nat}
    {f : String × GoType} (h : findField fields key = some f) (j1 j2 : JSON)
    (hj : ∀ cur, decodeValue f.2 cur j2 = decodeValue f.2 cur j1)
    (pre post : List (List Nat × JSON)) (cur : GoVal) :
    decodeMembers fields cur (pre ++ (key, j2) :: post) =
      decodeMembers fields cur (pre ++ (key, j1) :: post) := by
  rw [decodeMembers_append, decodeMembers_append fields pre ((key, j1) :: post),
    decodeMembers_cons_some h, decodeMembers_cons_some h]
  simp only [hj]

/-- Unknown keys are skipped, at every level of the data model. -/
theorem decodeValue_addsUnknown {ty : GoType} {j1 j2 : JSON} (h : AddsUnknown ty j1 j2) :
    ∀ cur, decodeValue ty cur j2 = decodeValue ty cur j1 := by
  induction h with
  | here fields pre post key j hf =>
    intro cur
    simp only [decodeValue]
    exact decodeMembers_skip hf pre post j cur
  | inside fields pre post key f j1 j2 hf _ ih =>
    intro cur
    simp only [decodeValue]
    exact decodeMembers_congr hf j1 j2 ih pre post cur

/-! ## The last member written under a key decides the field -/

theorem select_decodeMembers_last {fields : List (String × GoType)} {key : List Nat}
    {f : String × GoType} (hf : findField fields key = some f) (j : JSON)
    (rest : List String) (v : GoVal)
    (hj : ∀ w, conforms f.2 w = true → (decodeValue f.2 w j).1.select rest = some v)
    (pre post : List (List Nat × JSON)) (hpost : mentionsIn fields f.1 rest post = false)
    (cur : GoVal) (hcur : conforms (.struct fields) cur = true) :
    (decodeMembers fields cur (pre ++ (key, j) :: post)).1.select (f.1 :: rest) = some v := by
  rw [decodeMembers_append]
  simp only
  have hpre := conforms_decodeMembers pre fields cur hcur
  generalize (decodeMembers fields cur pre).1 = mid at hpre
  obtain ⟨w, hw, hwc⟩ := conforms_field hpre hf
  rw [decodeMembers_cons_some hf]
  simp only [hw, Option.getD_some]
  obtain ⟨name, fty⟩ := f
  rw [select_decodeMembers post fields _ name rest
    (conforms_setField hpre hf (conforms_decodeValue j fty w hwc)) hpost]
  rw [select_setField]
  simp only [true_and, hw, Option.isSome_some, if_true]
  exact hj w hwc

/-! ## The zero value -/

theorem zeroFields_find (name : String) :
    ∀ fields : List (String × GoType),
      (zeroFields fields).find? (fun g => g.1 = name) =
        (fields.find? fun g => g.1 = name).map fun f => (f.1, zero f.2)
  | [] => by simp [zeroFields]
  | (n, ty) :: rest => by
    simp only [zeroFields, List.find?_cons]
    by_cases h : n = name
    · simp [h]
    · simp [h, zeroFields_find name rest]

theorem zero_field (ty : GoType) (name : String) :
    (zero ty).field name = (ty.fields.find? fun g => g.1 = name).map fun f => zero f.2 := by
  cases ty with
  | struct fields =>
    simp only [zero, GoVal.field, GoType.fields, zeroFields_find, Option.map_map]
    rfl
  | _ => simp [zero, GoVal.field, GoType.fields]

/-- The zero value of a type, read along a selector chain, is the zero value
of the type of the chain. -/
theorem zero_select : ∀ (path : List String) (ty : GoType),
    (zero ty).select path = (fieldType ty path).map zero
  | [], ty => by simp [GoVal.select, fieldType]
  | name :: rest, ty => by
    simp only [GoVal.select, fieldType, zero_field]
    cases ty.fields.find? fun g => g.1 = name with
    | none => simp
    | some f => simpa using zero_select rest f.2

/-! ## One field written under any spelling of its name -/

/-- A key stands for a field only if it is the name of the field up to the
case of its letters. -/
theorem foldName_of_findField {fields : List (String × GoType)} {key : List Nat}
    {f : String × GoType} (h : findField fields key = some f) :
    foldName (utf8 f.1) = foldName key := by
  unfold findField at h
  cases hx : fields.find? (fun g => utf8 g.1 = key) with
  | some g =>
    rw [hx] at h
    simp only [Option.some.injEq] at h
    subst h
    have := List.find?_some hx
    simp only [decide_eq_true_eq] at this
    rw [this]
  | none =>
    rw [hx] at h
    simpa using List.find?_some h

theorem foldDistinctIn_mem {all : List (String × GoType)} {f : String × GoType} :
    ∀ {sub : List (String × GoType)}, foldDistinctIn all sub = true → f ∈ sub →
      (all.find? fun g => foldName (utf8 g.1) = foldName (utf8 f.1)).map Prod.fst = some f.1 ∧
      foldDistinct f.2 = true
  | [], _, hmem => by simp at hmem
  | (n, ty) :: sub, h, hmem => by
    simp only [foldDistinctIn, Bool.and_eq_true, decide_eq_true_eq] at h
    rcases List.mem_cons.1 hmem with rfl | hmem
    · exact ⟨h.1.1, h.1.2⟩
    · exact foldDistinctIn_mem h.2 hmem

/-- In a struct whose field names are distinct up to the case of letters, a
key that spells the name of a field up to the case of letters stands for
that field. -/
theorem findField_of_fold {fields : List (String × GoType)} {f : String × GoType}
    {key : List Nat} (hall : foldDistinctIn fields fields = true)
    (hfind : fields.find? (fun g => g.1 = f.1) = some f)
    (hkey : foldName key = foldName (utf8 f.1)) : findField fields key = some f := by
  have hf := (foldDistinctIn_mem hall (List.mem_of_find?_eq_some hfind)).1
  have hname : ∀ g, findField fields key = some g → g.1 = f.1 := by
    intro g hg
    have hg2 := (foldDistinctIn_mem hall (findField_mem hg)).1
    rw [foldName_of_findField hg, hkey, hf] at hg2
    simpa using hg2.symm
  have hex : ∃ g, findField fields key = some g := by
    unfold findField
    cases fields.find? (fun g => utf8 g.1 = key) with
    | some g => exact ⟨g, rfl⟩
    | none =>
      simp only
      rw [hkey]
      cases h : fields.find? (fun g => foldName (utf8 g.1) = foldName (utf8 f.1)) with
      | none => simp [h] at hf
      | some g => exact ⟨g, rfl⟩
  obtain ⟨g, hg⟩ := hex
  have h1 := findField_first hg
  rw [hname g hg, hfind] at h1
  rw [hg, ← h1]

/-- Lower camel case is a spelling up to the case of letters. -/
theorem foldName_lowerCamel (name : String) :
    foldName (lowerCamel name) = foldName (utf8 name) := by
  unfold lowerCamel
  rcases utf8 name with _ | ⟨a, _ | ⟨b, _ | ⟨c, rest⟩⟩⟩
  · rfl
  · simp only [foldName]
    split_ifs <;> simp <;> omega
  · simp only [foldName]
    split_ifs <;> simp <;> omega
  · simp only [foldName]
    split_ifs <;> simp <;> omega

theorem spells_goNames : ∀ path : List String, Spells (goNames path) path
  | [] => List.Forall₂.nil
  | _ :: rest => List.Forall₂.cons rfl (spells_goNames rest)

theorem spells_camelNames : ∀ path : List String, Spells (camelNames path) path
  | [] => List.Forall₂.nil
  | name :: rest => List.Forall₂.cons (foldName_lowerCamel name) (spells_camelNames rest)

/-- A value written under keys that spell a selector chain is decoded into
the field at the end of the chain, without error. -/
theorem decodeValue_nest {lty : GoType} {j : JSON} {v : GoVal} (hv : Denotes lty j v) :
    ∀ (path : List String) (keys : List (List Nat)) (ty : GoType), Spells keys path →
      foldDistinct ty = true → fieldType ty path = some lty →
      decodeValue ty (zero ty) (nest keys j) =
        ((decodeValue ty (zero ty) (nest keys j)).1, none) ∧
      (decodeValue ty (zero ty) (nest keys j)).1.select path = some v
  | [], keys, ty, hs, _, ht => by
    cases hs
    simp only [fieldType, Option.some.injEq] at ht
    subst ht
    cases hv with
    | bool b => simp [nest, decodeValue, GoVal.select]
    | string s => simp [nest, decodeValue, GoVal.select]
    | float32 text bits hp => simp [nest, decodeValue, GoVal.select, hp]
    | int text i hp => simp [nest, decodeValue, GoVal.select, hp]
  | name :: rest, keys, ty, hs, hty, ht => by
    cases hs with
    | cons hk hrest =>
      rename_i key keys
      simp only [fieldType] at ht
      cases hfind : ty.fields.find? (fun g => g.1 = name) with
      | none => simp [hfind] at ht
      | some f =>
        simp only [hfind] at ht
        have hname : f.1 = name := by simpa using List.find?_some hfind
        cases ty with
        | struct fields =>
          simp only [GoType.fields] at hfind
          simp only [foldDistinct] at hty
          have hsub := (foldDistinctIn_mem hty (List.mem_of_find?_eq_some hfind)).2
          subst hname
          have hkey : findField fields key = some f := findField_of_fold hty hfind hk
          obtain ⟨ih1, ih2⟩ := decodeValue_nest hv rest keys f.2 hrest hsub ht
          have hz : (zero (GoType.struct fields)).field f.1 = some (zero f.2) := by
            rw [zero_field]; simp [GoType.fields, hfind]
          simp only [nest, decodeValue]
          rw [decodeMembers_cons_some hkey]
          simp only [hz, Option.getD_some, decodeMembers_nil, firstError_none_right]
          refine ⟨?_, ?_⟩
          · rw [ih1]
          · rw [select_setField]
            simp only [true_and, hz, Option.isSome_some, if_true]
            exact ih2
        | _ => simp [GoType.fields] at hfind

mutual
theorem conforms_zero : ∀ ty : GoType, conforms ty (zero ty) = true
  | .bool => by simp [zero, conforms]
  | .string => by simp [zero, conforms]
  | .float32 => by simp [zero, conforms]
  | .int => by simp [zero, conforms]
  | .struct fields => by simpa [zero, conforms] using conformsFields_zero fields
theorem conformsFields_zero : ∀ fields : List (String × GoType),
    conformsFields fields (zeroFields fields) = true
  | [] => by simp [zeroFields, conformsFields]
  | (name, ty) :: rest => by
    simp [zeroFields, conformsFields, conforms_zero ty, conformsFields_zero rest]
end

/-! ## `parseTelemetry` and `GetTelemetry`, case by case -/

theorem parseTelemetry_of_ok {jsonIn : List Nat} {t : GoVal}
    (h : Unmarshal jsonIn Telemetry (zero Telemetry) = (t, none)) :
    parseTelemetry jsonIn = .returned (t, none) := by
  simp [parseTelemetry, h]

theorem parseTelemetry_of_error {jsonIn : List Nat} {e : UnmarshalError}
    (h : (Unmarshal jsonIn Telemetry (zero Telemetry)).2 = some e) :
    parseTelemetry jsonIn = .exited 1 ⟨"Failed to parse: %v", .bytes jsonIn⟩ := by
  simp [parseTelemetry, h, log.Fatalf]

/-- Whatever `parseTelemetry` returns is what `Unmarshal` stored, and the
error it returns is nil. -/
theorem parseTelemetry_returned {jsonIn : List Nat} {t : GoVal} {err : Option GoError}
    (h : parseTelemetry jsonIn = .returned (t, err)) :
    err = none ∧ Unmarshal jsonIn Telemetry (zero Telemetry) = (t, none) := by
  unfold parseTelemetry at h
  cases he : (Unmarshal jsonIn Telemetry (zero Telemetry)).2 with
  | some e => simp [he, log.Fatalf] at h
  | none =>
    simp only [he, Outcome.returned.injEq, Prod.mk.injEq] at h
    refine ⟨h.2.symm, ?_⟩
    rw [← h.1, ← he]

theorem Unmarshal_of_parse {jsonIn : List Nat} {j : JSON} (h : parse jsonIn = some j)
    (ty : GoType) (v : GoVal) : Unmarshal jsonIn ty v = decodeValue ty v j := by
  simp [Unmarshal, h]

theorem GetTelemetry_of_body {c : Client} {net : Transport} {resp : Response}
    (hget : net (c.BaseUrl ++ "/api/ets2/telemetry") = .ok resp)
    (hstatus : resp.StatusCode = 200) (hbody : resp.Body.err = none) :
    (c.GetTelemetry net).1 = parseTelemetry resp.Body.data := by
  simp [Client.GetTelemetry, hget, hstatus, hbody]

/-! ## No two fields of the data model differ only in the case of letters -/

set_option maxRecDepth 100000

theorem foldDistinct_Telemetry : foldDistinct Telemetry = true := by decide!

theorem foldDistinct_TelemetryTruck :
    foldDistinctIn TelemetryTruck.fields TelemetryTruck.fields = true := by decide!

/-! ## The claims -/

/-- C1. A well-formed JSON object in which every key that stands for a field
carries a value of the type of the field is decoded without error:
`parseTelemetry` returns a snapshot and a nil error, and every field, at every
level, for which the document carries no key has the zero value of its
type. -/
theorem parseTelemetry_typed_object (jsonIn : List Nat) (members : List (List Nat × JSON))
    (hparse : parse jsonIn = some (.obj members))
    (htyped : hasType Telemetry (.obj members) = true) :
    ∃ t, parseTelemetry jsonIn = .returned (t, none) ∧
      ∀ path, mentions Telemetry path (.obj members) = false →
        t.select path = (fieldType Telemetry path).map zero := by
  refine ⟨(decodeValue Telemetry (zero Telemetry) (.obj members)).1, ?_, ?_⟩
  · apply parseTelemetry_of_ok
    rw [Unmarshal_of_parse hparse]
    exact Prod.ext rfl (decodeValue_ok _ _ _ htyped)
  · intro path hpath
    rw [select_decodeValue _ _ _ path (conforms_zero _) hpath, zero_select]

/-- C1, at the document of a game that is not connected and at the empty
object: both are objects of the types of the data model, both decode to the
snapshot in which every field is zero, `Game.Connected` being `false`. -/
theorem parseTelemetry_typed_object_disconnected :
    (∃ t, parseTelemetry disconnected = .returned (t, none) ∧
      ∀ path,
        mentions Telemetry path (.obj [(utf8 "game", .obj [(utf8 "connected", .bool false)])])
          = false →
        t.select path = (fieldType Telemetry path).map zero) ∧
    parseTelemetry disconnected = .returned (zero Telemetry, none) ∧
    (zero Telemetry).select ["Game", "Connected"] = some (.bool false) ∧
    (∃ t, parseTelemetry (utf8 "\x7b\x7d") = .returned (t, none) ∧
      ∀ path, mentions Telemetry path (.obj []) = false →
        t.select path = (fieldType Telemetry path).map zero) ∧
    parseTelemetry (utf8 "\x7b\x7d") = .returned (zero Telemetry, none) :=
  ⟨parseTelemetry_typed_object disconnected _ rfl rfl, rfl, rfl,
    parseTelemetry_typed_object (utf8 "\x7b\x7d") [] rfl rfl, rfl⟩

/-- C2, as the claim states it, fails: on the body `not json` the call
`parseTelemetry` does not return at all, with or without an error; the
process exits with status 1. -/
theorem parseTelemetry_notJson_exits :
    parseTelemetry notJson = .exited 1 ⟨"Failed to parse: %v", .bytes notJson⟩ ∧
    ¬ ∃ r, parseTelemetry notJson = .returned r := by
  have h : parseTelemetry notJson = .exited 1 ⟨"Failed to parse: %v", .bytes notJson⟩ := rfl
  refine ⟨h, ?_⟩
  rintro ⟨r, hr⟩
  rw [h] at hr
  cases hr

/-- C2, amended. On every byte buffer on which decoding into the data model
fails, `parseTelemetry`, and `GetTelemetry` on a response with status 200
and that body, log `Failed to parse:` with the payload and end the process
with exit status 1; nothing is returned to the caller, neither an error nor a
snapshot. -/
theorem parseTelemetry_decode_error_exits (jsonIn : List Nat) (e : UnmarshalError)
    (herr : (Unmarshal jsonIn Telemetry (zero Telemetry)).2 = some e) :
    parseTelemetry jsonIn = .exited 1 ⟨"Failed to parse: %v", .bytes jsonIn⟩ ∧
    ∀ (c : Client) (net : Transport) (resp : Response),
      net (c.BaseUrl ++ "/api/ets2/telemetry") = .ok resp →
      resp.StatusCode = 200 → resp.Body = ⟨jsonIn, none⟩ →
      (c.GetTelemetry net).1 = .exited 1 ⟨"Failed to parse: %v", .bytes jsonIn⟩ := by
  refine ⟨parseTelemetry_of_error herr, ?_⟩
  intro c net resp hget hstatus hbody
  rw [GetTelemetry_of_body hget hstatus (by rw [hbody]), hbody]
  exact parseTelemetry_of_error herr

/-- C2, amended, at the JSON string `"not json"` as the whole document: the
decoder reports a string where a struct is expected, and the process exits,
in `parseTelemetry` and in `GetTelemetry`; so it does for a string as
`truck.speed`. -/
theorem parseTelemetry_decode_error_exits_notJsonString :
    (Unmarshal notJsonString Telemetry (zero Telemetry)).2
      = some (.typeError (utf8 "string") Telemetry) ∧
    parseTelemetry notJsonString
      = .exited 1 ⟨"Failed to parse: %v", .bytes notJsonString⟩ ∧
    ((NewClient localhost).GetTelemetry (answering 200 notJsonString)).1
      = .exited 1 ⟨"Failed to parse: %v", .bytes notJsonString⟩ ∧
    parseTelemetry speedString = .exited 1 ⟨"Failed to parse: %v", .bytes speedString⟩ :=
  ⟨rfl, (parseTelemetry_decode_error_exits notJsonString _ rfl).1,
    (parseTelemetry_decode_error_exits notJsonString _ rfl).2 (NewClient localhost)
      (answering 200 notJsonString) ⟨200, ⟨notJsonString, none⟩⟩ rfl rfl rfl,
    (parseTelemetry_decode_error_exits speedString (.typeError (utf8 "string") .float32) rfl).1⟩

/-- C3, as the claim states it, fails: on a response with status 500
`GetTelemetry` does not return to its caller; the process exits with
status 1. -/
theorem GetTelemetry_status_500_exits :
    ((NewClient localhost).GetTelemetry (answering 500 disconnected)).1
      = .exited 1 ⟨"Bad status %v", .status 500⟩ ∧
    ¬ ∃ r, ((NewClient localhost).GetTelemetry (answering 500 disconnected)).1 = .returned r := by
  have h : ((NewClient localhost).GetTelemetry (answering 500 disconnected)).1
      = .exited 1 ⟨"Bad status %v", .status 500⟩ := rfl
  refine ⟨h, ?_⟩
  rintro ⟨r, hr⟩
  rw [h] at hr
  cases hr

/-- C3, amended. For every response whose status code is not 200,
`GetTelemetry` logs `Bad status` with the code and ends the process with exit
status 1, whatever the body is and without reading it; no snapshot and no
error is returned. -/
theorem GetTelemetry_bad_status_exits (c : Client) (net : Transport) (resp : Response)
    (hget : net (c.BaseUrl ++ "/api/ets2/telemetry") = .ok resp)
    (hstatus : resp.StatusCode ≠ 200) :
    c.GetTelemetry net =
      (.exited 1 ⟨"Bad status %v", .status resp.StatusCode⟩,
        [.get (c.BaseUrl ++ "/api/ets2/telemetry")]) := by
  simp [Client.GetTelemetry, hget, hstatus, log.Fatalf]

/-- C3, amended, at status 500 with a body that would decode. -/
theorem GetTelemetry_bad_status_exits_500 :
    (NewClient localhost).GetTelemetry (answering 500 disconnected) =
      (.exited 1 ⟨"Bad status %v", .status 500⟩,
        [.get "http://localhost:25555/api/ets2/telemetry"]) :=
  GetTelemetry_bad_status_exits (NewClient localhost) (answering 500 disconnected)
    ⟨500, ⟨disconnected, none⟩⟩ rfl (by decide)

/-- C4, as the claim states it, fails: when the GET request fails,
`GetTelemetry` does not return to its caller; the process exits with
status 1. -/
theorem GetTelemetry_refused_exits :
    ((NewClient localhost).GetTelemetry refusing).1
      = .exited 1 ⟨"HTTP GET failed: %v",
          .error (.net "dial tcp 127.0.0.1:25555: connect: connection refused")⟩ ∧
    ¬ ∃ r, ((NewClient localhost).GetTelemetry refusing).1 = .returned r := by
  have h : ((NewClient localhost).GetTelemetry refusing).1
      = .exited 1 ⟨"HTTP GET failed: %v",
          .error (.net "dial tcp 127.0.0.1:25555: connect: connection refused")⟩ := rfl
  refine ⟨h, ?_⟩
  rintro ⟨r, hr⟩
  rw [h] at hr
  cases hr

/-- C4, amended. When the GET request fails with the error `e`, `GetTelemetry`
logs `HTTP GET failed:` with `e` and ends the process with exit status 1;
when the response has status 200 and reading its body fails with `e`, it logs
`Failed to read http response:` with `e` and ends the process with exit
status 1. In both cases nothing is returned to the caller. -/
theorem GetTelemetry_transport_failure_exits (c : Client) (net : Transport) (e : GoError) :
    (net (c.BaseUrl ++ "/api/ets2/telemetry") = .error e →
      (c.GetTelemetry net).1 = .exited 1 ⟨"HTTP GET failed: %v", .error e⟩) ∧
    (∀ resp : Response, net (c.BaseUrl ++ "/api/ets2/telemetry") = .ok resp →
      resp.StatusCode = 200 → resp.Body.err = some e →
      (c.GetTelemetry net).1 = .exited 1 ⟨"Failed to read http response: %v", .error e⟩) := by
  constructor
  · intro hget
    simp [Client.GetTelemetry, hget, log.Fatalf]
  · intro resp hget hstatus hbody
    simp [Client.GetTelemetry, hget, hstatus, hbody, log.Fatalf]

/-- C4, amended, at a refused connection and at a connection that drops while
the body is read. -/
theorem GetTelemetry_transport_failure_exits_examples :
    ((NewClient localhost).GetTelemetry refusing).1
      = .exited 1 ⟨"HTTP GET failed: %v",
          .error (.net "dial tcp 127.0.0.1:25555: connect: connection refused")⟩ ∧
    ((NewClient localhost).GetTelemetry dropping).1
      = .exited 1 ⟨"Failed to read http response: %v", .error (.net "unexpected EOF")⟩ :=
  ⟨(GetTelemetry_transport_failure_exits (NewClient localhost) refusing _).1 rfl,
    (GetTelemetry_transport_failure_exits (NewClient localhost) dropping _).2
      ⟨200, ⟨utf8 "\x7b\"game\":", some (.net "unexpected EOF")⟩⟩ rfl rfl rfl⟩

/-- C5. Unknown keys are ignored: if a document decodes without error, the
document with one more member, under a key that stands for no field of the
data model at the level where it is added and with any JSON value, decodes
without error to the same snapshot. -/
theorem parseTelemetry_unknown_key (d d2 : List Nat) (j j2 : JSON) (t : GoVal)
    (hd : parse d = some j) (hd2 : parse d2 = some j2) (hadd : AddsUnknown Telemetry j j2)
    (hok : parseTelemetry d = .returned (t, none)) :
    parseTelemetry d2 = .returned (t, none) := by
  have h := (parseTelemetry_returned hok).2
  rw [Unmarshal_of_parse hd] at h
  apply parseTelemetry_of_ok
  rw [Unmarshal_of_parse hd2, decodeValue_addsUnknown hadd, h]

/-- C5, at `"futureField": 123` added to the top level of a document that
says the game is connected, and at `"futureField": [1,{"a":null}]` added to
its `game` object. -/
theorem parseTelemetry_unknown_key_futureField :
    parseTelemetry connected
      = .returned ((zero Telemetry).setField "Game"
          ((zero TelemetryGame).setField "Connected" (.bool true)), none) ∧
    parseTelemetry connectedFuture
      = .returned ((zero Telemetry).setField "Game"
          ((zero TelemetryGame).setField "Connected" (.bool true)), none) ∧
    parseTelemetry connectedFutureInside
      = .returned ((zero Telemetry).setField "Game"
          ((zero TelemetryGame).setField "Connected" (.bool true)), none) :=
  ⟨rfl,
    parseTelemetry_unknown_key connected connectedFuture
      (JSON.obj ([(utf8 "game", JSON.obj [(utf8 "connected", JSON.bool true)])] ++ []))
      (JSON.obj ([(utf8 "game", JSON.obj [(utf8 "connected", JSON.bool true)])]
        ++ (utf8 "futureField", JSON.num (utf8 "123")) :: []))
      _ (by rfl) (by rfl)
      (AddsUnknown.here Telemetry.fields
        [(utf8 "game", JSON.obj [(utf8 "connected", JSON.bool true)])] []
        (utf8 "futureField") (JSON.num (utf8 "123")) rfl)
      rfl,
    parseTelemetry_unknown_key connected connectedFutureInside
      (JSON.obj ([] ++ (utf8 "game",
        JSON.obj ([(utf8 "connected", JSON.bool true)] ++ [])) :: []))
      (JSON.obj ([] ++ (utf8 "game",
        JSON.obj ([(utf8 "connected", JSON.bool true)] ++ (utf8 "futureField",
          JSON.arr [JSON.num (utf8 "1"), JSON.obj [(utf8 "a", JSON.null)]]) :: [])) :: []))
      _ (by rfl) (by rfl)
      (AddsUnknown.inside Telemetry.fields [] [] (utf8 "game") ("Game", TelemetryGame) _ _ rfl
        (AddsUnknown.here TelemetryGame.fields [(utf8 "connected", JSON.bool true)] []
          (utf8 "futureField")
          (JSON.arr [JSON.num (utf8 "1"), JSON.obj [(utf8 "a", JSON.null)]]) rfl))
      rfl⟩

/-- C6, as the claim states it, fails: what goes out on the wire is decided
inside `http.Get`. In front of a server that redirects, one call of
`GetTelemetry` issues two GET requests, not the one for `u` followed by
`/api/ets2/telemetry`; for the empty base URL, which gives a URL without a
scheme, it issues none. -/
theorem GetTelemetry_redirect_two_requests :
    sent redirected ((NewClient localhost).GetTelemetry (answering 200 disconnected)).2
      = ["http://localhost:25555/api/ets2/telemetry",
          "http://localhost:25555/api/ets2/telemetry/"] ∧
    sent redirected ((NewClient localhost).GetTelemetry (answering 200 disconnected)).2
      ≠ [localhost ++ "/api/ets2/telemetry"] ∧
    sent unsent ((NewClient "").GetTelemetry schemeless).2 = [] ∧
    sent unsent ((NewClient "").GetTelemetry schemeless).2 ≠ ["" ++ "/api/ets2/telemetry"] := by
  refine ⟨rfl, ?_, rfl, ?_⟩
  · intro h
    have hlen := congrArg List.length h
    have h2 : (sent redirected
        ((NewClient localhost).GetTelemetry (answering 200 disconnected)).2).length = 2 := rfl
    rw [h2] at hlen
    exact absurd hlen (by decide)
  · intro h
    have hlen := congrArg List.length h
    have h0 : (sent unsent ((NewClient "").GetTelemetry schemeless).2).length = 0 := rfl
    rw [h0] at hlen
    exact absurd hlen (by decide)

/-- C6, amended. The client built by `NewClient u` holds exactly `u`; a call
of `GetTelemetry` on it makes exactly one call of `http.Get`, whatever the
network answers, and the argument of that call is `u` followed by
`/api/ets2/telemetry`, with nothing changed in `u` and nothing added; the GET
requests that go out are the ones `net/http` sends for that one call; and the
caller's client has the base URL `u` after the call. -/
theorem GetTelemetry_one_call (u : String) (net : Transport) (wire : Wire) :
    (NewClient u).BaseUrl = u ∧
    calls ((NewClient u).GetTelemetry net).2 = [u ++ "/api/ets2/telemetry"] ∧
    sent wire ((NewClient u).GetTelemetry net).2 = wire (u ++ "/api/ets2/telemetry") ∧
    ((NewClient u).afterGetTelemetry net).1.BaseUrl = u := by
  have hcalls : calls ((NewClient u).GetTelemetry net).2 = [u ++ "/api/ets2/telemetry"] := by
    simp only [Client.GetTelemetry, NewClient]
    cases net (u ++ "/api/ets2/telemetry") with
    | error e => simp [calls]
    | ok resp =>
      by_cases hstatus : resp.StatusCode = 200
      · cases hbody : resp.Body.err <;> simp [hstatus, hbody, calls]
      · simp [hstatus, calls]
  refine ⟨rfl, hcalls, ?_, rfl⟩
  simp [sent, hcalls]

/-- C7. `GetTelemetry` fetches and delegates: on a response with status 200
whose body is read to its end as `b`, what `GetTelemetry` does is what
`parseTelemetry b` does, the returned pair included; and the call depends on
the network only through the answer to its one request. -/
theorem GetTelemetry_delegates (c : Client) (net : Transport) (resp : Response) (b : List Nat)
    (hget : net (c.BaseUrl ++ "/api/ets2/telemetry") = .ok resp)
    (hstatus : resp.StatusCode = 200) (hbody : resp.Body = ⟨b, none⟩) :
    (c.GetTelemetry net).1 = parseTelemetry b ∧
    ∀ net2 : Transport,
      net2 (c.BaseUrl ++ "/api/ets2/telemetry") = net (c.BaseUrl ++ "/api/ets2/telemetry") →
      c.GetTelemetry net2 = c.GetTelemetry net := by
  constructor
  · rw [GetTelemetry_of_body hget hstatus (by rw [hbody]), hbody]
  · intro net2 h2
    simp only [Client.GetTelemetry, h2]

/-- C7, at the telemetry server answering 200 with the document of a game
that is connected. -/
theorem GetTelemetry_delegates_connected :
    ((NewClient localhost).GetTelemetry (answering 200 connected)).1 = parseTelemetry connected ∧
    parseTelemetry connected
      = .returned ((zero Telemetry).setField "Game"
          ((zero TelemetryGame).setField "Connected" (.bool true)), none) :=
  ⟨(GetTelemetry_delegates (NewClient localhost) (answering 200 connected)
    ⟨200, ⟨connected, none⟩⟩ connected rfl rfl rfl).1, rfl⟩

/-- C8, as the claim states it, fails, in three ways. The field is populated
from other keys: `AIRPRESSUREEMEGRENCYVALUE` and the spelling with long s
give it 7.5. A document whose truck object binds `airPressureEmegrencyValue`
to 7.5 and then binds the field again yields 1.0 (bits `0x3F800000`), not
7.5. A document that binds the key to 7.5 and has a string as `game` yields
nothing: the process exits. -/
theorem airPressureEmegrencyValue_other_keys :
    (∃ t, parseTelemetry emegrencyUpper = .returned (t, none) ∧
      t.select ["Truck", "AirPressureEmegrencyValue"] = some (.float32 0x40F00000)) ∧
    (∃ t, parseTelemetry emegrencyLongS = .returned (t, none) ∧
      t.select ["Truck", "AirPressureEmegrencyValue"] = some (.float32 0x40F00000)) ∧
    (∃ t, parseTelemetry emegrencyTwice = .returned (t, none) ∧
      t.select ["Truck", "AirPressureEmegrencyValue"] = some (.float32 0x3F800000)) ∧
    parseTelemetry emegrencyBadGame
      = .exited 1 ⟨"Failed to parse: %v", .bytes emegrencyBadGame⟩ ∧
    ¬ ∃ r, parseTelemetry emegrencyBadGame = .returned r := by
  have h : parseTelemetry emegrencyBadGame
      = .exited 1 ⟨"Failed to parse: %v", .bytes emegrencyBadGame⟩ := rfl
  refine ⟨⟨_, rfl, rfl⟩, ⟨_, rfl, rfl⟩, ⟨_, rfl, rfl⟩, h, ?_⟩
  rintro ⟨r, hr⟩
  rw [h] at hr
  cases hr

/-- C8, amended. The misspelled wire key is the key of the field, up to the
case of letters. (1) When the truck object of a document binds
`airPressureEmegrencyValue` to a number, no later member of that object and
no later truck object binds the field again, and `parseTelemetry` returns,
the snapshot has that number as `Truck.AirPressureEmegrencyValue`. (2) A key
stands for the field only if it is that name up to the case of letters as the
decoder folds it, and (3) every such key stands for it. (4) A document that
carries no key for the field leaves it at 0. (5) The correctly spelled
`airPressureEmergencyValue` stands for no field of the truck, and (6) a
document that carries it instead, with any value, decodes to the snapshot in
which every field is zero. -/
theorem airPressureEmegrencyValue_wire_key :
    (∀ (jsonIn : List Nat) (pre post pre2 post2 : List (List Nat × JSON)) (text : List Nat)
        (bits : Nat) (t : GoVal) (err : Option GoError),
      parse jsonIn = some (.obj (pre ++ (utf8 "truck",
        .obj (pre2 ++ (utf8 "airPressureEmegrencyValue", .num text) :: post2)) :: post)) →
      parseFloat32 text = some bits →
      mentionsIn TelemetryTruck.fields "AirPressureEmegrencyValue" [] post2 = false →
      mentionsIn Telemetry.fields "Truck" ["AirPressureEmegrencyValue"] post = false →
      parseTelemetry jsonIn = .returned (t, err) →
      t.select ["Truck", "AirPressureEmegrencyValue"] = some (.float32 bits)) ∧
    (∀ (key : List Nat) (f : String × GoType),
      findField TelemetryTruck.fields key = some f → f.1 = "AirPressureEmegrencyValue" →
      foldName key = foldName (utf8 "airPressureEmegrencyValue")) ∧
    (∀ key : List Nat, foldName key = foldName (utf8 "airPressureEmegrencyValue") →
      findField TelemetryTruck.fields key
        = some ("AirPressureEmegrencyValue", GoType.float32)) ∧
    (∀ (jsonIn : List Nat) (j : JSON) (t : GoVal) (err : Option GoError),
      parse jsonIn = some j →
      mentions Telemetry ["Truck", "AirPressureEmegrencyValue"] j = false →
      parseTelemetry jsonIn = .returned (t, err) →
      t.select ["Truck", "AirPressureEmegrencyValue"] = some (.float32 0)) ∧
    findField TelemetryTruck.fields (utf8 "airPressureEmergencyValue") = none ∧
    (∀ (jsonIn : List Nat) (j : JSON),
      parse jsonIn
        = some (.obj [(utf8 "truck", .obj [(utf8 "airPressureEmergencyValue", j)])]) →
      parseTelemetry jsonIn = .returned (zero Telemetry, none)) := by
  have htruck : findField Telemetry.fields (utf8 "truck") = some ("Truck", TelemetryTruck) := rfl
  have hkey : findField TelemetryTruck.fields (utf8 "airPressureEmegrencyValue")
      = some ("AirPressureEmegrencyValue", GoType.float32) := rfl
  have hnone : findField TelemetryTruck.fields (utf8 "airPressureEmergencyValue") = none := rfl
  refine ⟨?_, ?_, ?_, ?_, hnone, ?_⟩
  · intro jsonIn pre post pre2 post2 text bits t err hparse hbits hpost2 hpost hret
    have h := (parseTelemetry_returned hret).2
    rw [Unmarshal_of_parse hparse] at h
    have hdec : (decodeValue Telemetry (zero Telemetry) (.obj (pre ++ (utf8 "truck",
        .obj (pre2 ++ (utf8 "airPressureEmegrencyValue", .num text) :: post2)) :: post))).1
        = t := by rw [h]
    rw [← hdec]
    show (decodeValue (.struct Telemetry.fields) (zero Telemetry) _).1.select _ = _
    simp only [decodeValue]
    refine select_decodeMembers_last htruck _ ["AirPressureEmegrencyValue"] _ ?_ pre post hpost _
      (conforms_zero Telemetry)
    intro w hw
    show (decodeValue (.struct TelemetryTruck.fields) w _).1.select _ = _
    simp only [decodeValue]
    refine select_decodeMembers_last hkey _ [] _ ?_ pre2 post2 hpost2 _ hw
    intro w2 _
    simp [decodeValue, hbits, GoVal.select]
  · intro key f hf hname
    rw [← foldName_of_findField hf, hname]
    rfl
  · intro key hfold
    exact findField_of_fold (f := ("AirPressureEmegrencyValue", GoType.float32))
      foldDistinct_TelemetryTruck rfl hfold
  · intro jsonIn j t err hparse hno hret
    have h := (parseTelemetry_returned hret).2
    rw [Unmarshal_of_parse hparse] at h
    have hdec : (decodeValue Telemetry (zero Telemetry) j).1 = t := by rw [h]
    rw [← hdec, select_decodeValue _ _ _ _ (conforms_zero _) hno]
    rfl
  · intro jsonIn j hparse
    apply parseTelemetry_of_ok
    rw [Unmarshal_of_parse hparse]
    show decodeValue (.struct Telemetry.fields) (zero Telemetry) _ = _
    simp only [decodeValue]
    rw [decodeMembers_cons_some htruck, decodeMembers_nil]
    have hz : (zero Telemetry).field "Truck" = some (zero TelemetryTruck) := rfl
    simp only [hz, Option.getD_some]
    show (GoVal.setField (zero Telemetry) "Truck"
      (decodeValue (.struct TelemetryTruck.fields) (zero TelemetryTruck) _).1, _) = _
    simp only [decodeValue]
    rw [decodeMembers_cons_none hnone, decodeMembers_nil]
    rfl

/-- C8, amended, at two documents: the misspelled key with 7.5 gives the field the
binary32 number 7.5 (bits `0x40F00000`); the correctly spelled key with 7.5
leaves every field zero, `Truck.AirPressureEmegrencyValue` included. -/
theorem airPressureEmegrencyValue_wire_key_examples :
    (∃ t, parseTelemetry emegrency = .returned (t, none) ∧
      t.select ["Truck", "AirPressureEmegrencyValue"] = some (.float32 0x40F00000)) ∧
    parseTelemetry emergency = .returned (zero Telemetry, none) ∧
    (zero Telemetry).select ["Truck", "AirPressureEmegrencyValue"] = some (.float32 0) :=
  ⟨⟨_, rfl, airPressureEmegrencyValue_wire_key.1 emegrency [] [] [] [] (utf8 "7.5") 0x40F00000
      _ none (by rfl) (by rfl) (by rfl) (by rfl) rfl⟩,
    airPressureEmegrencyValue_wire_key.2.2.2.2.2 emergency (JSON.num (utf8 "7.5")) (by rfl),
    airPressureEmegrencyValue_wire_key.2.2.2.1 (utf8 "\x7b\x7d") (JSON.obj []) _ none
      (by rfl) (by rfl) rfl⟩

/-- C9 fails on the code: `GetTelemetry` never closes the response body. On
a response with status 200 and the body `{}` the call returns the zero
snapshot and a nil error, and all it did to the world is the request and the
read of the body; on no path at all is there a close. -/
theorem GetTelemetry_leaves_body_open :
    (NewClient localhost).GetTelemetry (answering 200 (utf8 "\x7b\x7d"))
      = (.returned (zero Telemetry, none),
          [.get "http://localhost:25555/api/ets2/telemetry", .readAll]) ∧
    ∀ (c : Client) (net : Transport), Event.close ∉ (c.GetTelemetry net).2 := by
  refine ⟨rfl, ?_⟩
  intro c net
  simp only [Client.GetTelemetry]
  cases net (c.BaseUrl ++ "/api/ets2/telemetry") with
  | error e => simp
  | ok resp =>
    by_cases hstatus : resp.StatusCode = 200
    · cases hbody : resp.Body.err <;> simp [hstatus, hbody]
    · simp [hstatus]

/-- C10. Key matching does not look at the case of letters: for every field
of the data model that is not itself a struct, at the end of any selector
chain `path`, and every JSON value `j` that writes a value `v` of the type of
the field, the document that holds `j` under the keys of `path` in the
telemetry server's lower camel case and the document that holds it under the
Go names of `path` both decode without error to a snapshot whose field is
`v`; and so does the document that holds it under any keys that spell `path`
up to the case of letters. -/
theorem parseTelemetry_key_case (path : List String) (ty : GoType) (j : JSON) (v : GoVal)
    (hfield : fieldType Telemetry path = some ty) (hv : Denotes ty j v) :
    (∀ jsonIn, parse jsonIn = some (nest (camelNames path) j) →
      ∃ t, parseTelemetry jsonIn = .returned (t, none) ∧ t.select path = some v) ∧
    (∀ jsonIn, parse jsonIn = some (nest (goNames path) j) →
      ∃ t, parseTelemetry jsonIn = .returned (t, none) ∧ t.select path = some v) ∧
    (∀ keys jsonIn, Spells keys path → parse jsonIn = some (nest keys j) →
      ∃ t, parseTelemetry jsonIn = .returned (t, none) ∧ t.select path = some v) := by
  have general : ∀ keys jsonIn, Spells keys path → parse jsonIn = some (nest keys j) →
      ∃ t, parseTelemetry jsonIn = .returned (t, none) ∧ t.select path = some v := by
    intro keys jsonIn hkeys hparse
    obtain ⟨h1, h2⟩ := decodeValue_nest hv path keys Telemetry hkeys foldDistinct_Telemetry hfield
    refine ⟨_, ?_, h2⟩
    apply parseTelemetry_of_ok
    rw [Unmarshal_of_parse hparse]
    exact h1
  exact ⟨fun jsonIn => general _ jsonIn (spells_camelNames path),
    fun jsonIn => general _ jsonIn (spells_goNames path), general⟩

/-- C10, at `Truck.Placement.Heading` and the number 1.5 (bits `0x3FC00000`):
`{"truck":{"placement":{"heading":1.5}}}`,
`{"Truck":{"Placement":{"Heading":1.5}}}` and
`{"TRUCK":{"PLACEMENT":{"HEADING":1.5}}}` decode alike. -/
theorem parseTelemetry_key_case_heading :
    (∃ t, parseTelemetry headingCamel = .returned (t, none) ∧
      t.select ["Truck", "Placement", "Heading"] = some (.float32 0x3FC00000)) ∧
    (∃ t, parseTelemetry headingGo = .returned (t, none) ∧
      t.select ["Truck", "Placement", "Heading"] = some (.float32 0x3FC00000)) ∧
    (∃ t, parseTelemetry headingUpper = .returned (t, none) ∧
      t.select ["Truck", "Placement", "Heading"] = some (.float32 0x3FC00000)) :=
  ⟨(parseTelemetry_key_case ["Truck", "Placement", "Heading"] GoType.float32
      (JSON.num (utf8 "1.5")) (GoVal.float32 0x3FC00000) (by rfl)
      (Denotes.float32 _ _ (by rfl))).1 headingCamel (by rfl),
    (parseTelemetry_key_case ["Truck", "Placement", "Heading"] GoType.float32
      (JSON.num (utf8 "1.5")) (GoVal.float32 0x3FC00000) (by rfl)
      (Denotes.float32 _ _ (by rfl))).2.1 headingGo (by rfl),
    (parseTelemetry_key_case ["Truck", "Placement", "Heading"] GoType.float32
      (JSON.num (utf8 "1.5")) (GoVal.float32 0x3FC00000) (by rfl)
      (Denotes.float32 _ _ (by rfl))).2.2 [utf8 "TRUCK", utf8 "PLACEMENT", utf8 "HEADING"]
      headingUpper
      (List.Forall₂.cons (by rfl) (List.Forall₂.cons (by rfl)
        (List.Forall₂.cons (by rfl) List.Forall₂.nil)))
      (by rfl)⟩

end Ets2
